import Mathlib

/-!
Verification of the terminal-multiplexer core of the tool-library repository.

The definitions below are shallow embeddings of the Rust sources:

* `strip_ansi`            — src/core/terminal/lib/terminal/ansi.rs
* `CursorState`           — src/core/terminal/lib/terminal/cursor.rs
* `ScreenBuffer`          — src/terminal/lib/terminal/screen.rs
* `ScrollbackBuffer`      — src/core/terminal/lib/terminal/scrollback.rs
* `PromptDetector.detect` — src/core/terminal/lib/terminal/prompt.rs
* `SpecialKey`/`KeyInput` — src/core/terminal/lib/input/keys.rs
* `SessionManager`        — src/core/terminal/lib/session/manager.rs

Machine integers (`u16`, `u8`) are modelled as `Nat` with an explicit
`% 2 ^ 16` (resp. `% 2 ^ 8`) at the operations where the Rust code performs
wrapping-capable arithmetic on stored values.
-/

/-! ## ANSI stripper (ansi.rs) -/

/-- States of the `StripState` machine in ansi.rs. -/
inductive StripState where
  | normal
  | escape
  | csi
  | osc
  | oscEscape
deriving DecidableEq

/-- The ESC character `\x1b`. -/
def escChar : Char := '\x1b'

/-- CSI terminators in ansi.rs: `c.is_ascii_alphabetic()` or one of
`@`, backquote, left brace, vertical bar, right brace, tilde
(code points 64, 96, 123, 124, 125, 126). -/
def isCsiTerminator (c : Char) : Bool :=
  (65 ≤ c.toNat && c.toNat ≤ 90) || (97 ≤ c.toNat && c.toNat ≤ 122) ||
    c.toNat == 64 || c.toNat == 96 || c.toNat == 123 || c.toNat == 124 ||
    c.toNat == 125 || c.toNat == 126

/-- Character-set designation introducers recognized in the `Escape` state of
ansi.rs: `(`, `)`, `*`, `+`, `-`, `.`, `/`. -/
def isCharsetIntroducer (c : Char) : Bool :=
  c == '(' || c == ')' || c == '*' || c == '+' || c == '-' || c == '.' || c == '/'

/-- One transition of the strip state machine: next state plus the character
emitted to the output, if any.  Faithful to the `match state` in
`strip_ansi` (ansi.rs lines 27-81): only the `Normal` state ever pushes a
character, and every arm of the `Escape` state other than `[` and `]`
returns to `Normal` without emitting (in particular the charset-designation
arm does not skip the following character, despite its comment). -/
def stripStep : StripState → Char → StripState × Option Char
  | .normal, c => if c = escChar then (.escape, none) else (.normal, some c)
  | .escape, c =>
      if c = '[' then (.csi, none)
      else if c = ']' then (.osc, none)
      else if isCharsetIntroducer c then (.normal, none)
      else (.normal, none)
  | .csi, c => if isCsiTerminator c then (.normal, none) else (.csi, none)
  | .osc, c =>
      if c = Char.ofNat 7 then (.normal, none)
      else if c = escChar then (.oscEscape, none)
      else (.osc, none)
  | .oscEscape, c => if c = '\\' then (.normal, none) else (.osc, none)

/-- Run the strip state machine over a character list, collecting output. -/
def stripRun : StripState → List Char → List Char
  | _, [] => []
  | st, c :: cs =>
      match stripStep st c with
      | (st2, some o) => o :: stripRun st2 cs
      | (st2, none) => stripRun st2 cs

/-- Embedding of `strip_ansi` (ansi.rs line 23). -/
def strip_ansi (s : String) : String :=
  ⟨stripRun .normal s.data⟩

theorem stripStep_emit (st : StripState) (c o : Char) (st2 : StripState)
    (h : stripStep st c = (st2, some o)) : o = c ∧ c ≠ escChar := by
  cases st <;> simp only [stripStep] at h <;> split_ifs at h <;>
    simp_all

theorem stripRun_no_esc (l : List Char) :
    ∀ st : StripState, ∀ c ∈ stripRun st l, c ≠ escChar := by
  induction l with
  | nil => intro st c hc; simp [stripRun] at hc
  | cons a as ih =>
      intro st c hc
      rw [stripRun] at hc
      rcases h : stripStep st a with ⟨st2, emitted⟩
      cases emitted with
      | none => rw [h] at hc; exact ih st2 c hc
      | some o =>
          rw [h] at hc
          rcases List.mem_cons.mp hc with h1 | h2
          · rcases stripStep_emit st a o st2 h with ⟨rfl, hne⟩
            exact h1 ▸ hne
          · exact ih st2 c h2

theorem stripRun_clean (l : List Char) (h : ∀ c ∈ l, c ≠ escChar) :
    stripRun .normal l = l := by
  induction l with
  | nil => rfl
  | cons a as ih =>
      have ha : a ≠ escChar := h a (List.mem_cons_self a as)
      rw [stripRun]
      simp only [stripStep, if_neg ha]
      exact congrArg (a :: ·) (ih fun c hc => h c (List.mem_cons_of_mem a hc))

/-- C6: `strip_ansi` is idempotent and its output never contains the ESC
character. -/
theorem strip_ansi_idempotent_no_esc (s : String) :
    strip_ansi (strip_ansi s) = strip_ansi s ∧
      ∀ c ∈ (strip_ansi s).data, c ≠ escChar := by
  have hclean : ∀ c ∈ (strip_ansi s).data, c ≠ escChar :=
    fun c hc => stripRun_no_esc s.data .normal c hc
  refine ⟨?_, hclean⟩
  show (⟨stripRun .normal (strip_ansi s).data⟩ : String) = strip_ansi s
  rw [stripRun_clean (strip_ansi s).data hclean]

/-- C4: evaluating `strip_ansi` at the failing input.  The charset-designation
arm of the state machine is documented as "skip next char" but does not skip
it, so the designator `B` of `ESC ( B` leaks into the output. -/
theorem strip_ansi_charset_designator_leaks :
    strip_ansi "\x1b(Btext" = "Btext" := by
  decide

/-! ## Cursor state (cursor.rs)

The `u16` fields are modelled as `Nat`; wherever the Rust code adds to a
stored `u16` we reduce `% 65536` (release-mode wrapping semantics). -/

/-- Embedding of `CursorState` (cursor.rs line 11). -/
structure CursorState where
  row : Nat
  col : Nat
  visible : Bool
  saved : Option (Nat × Nat)
deriving DecidableEq

/-- Embedding of `CursorState::new` (cursor.rs line 31). -/
def CursorState.new : CursorState :=
  { row := 0, col := 0, visible := true, saved := none }

/-- Embedding of `CursorState::move_to` (cursor.rs line 49).
Nat subtraction is saturating, like `u16::saturating_sub`. -/
def CursorState.move_to (cur : CursorState) (row col max_rows max_cols : Nat) : CursorState :=
  { cur with row := min row (max_rows - 1), col := min col (max_cols - 1) }

/-- Embedding of `CursorState::move_up` (cursor.rs line 55). -/
def CursorState.move_up (cur : CursorState) (n : Nat) : CursorState :=
  { cur with row := cur.row - n }

/-- Embedding of `CursorState::move_down` (cursor.rs line 60). -/
def CursorState.move_down (cur : CursorState) (n max_rows : Nat) : CursorState :=
  { cur with row := min ((cur.row + n) % 65536) (max_rows - 1) }

/-- Embedding of `CursorState::move_left` (cursor.rs line 65). -/
def CursorState.move_left (cur : CursorState) (n : Nat) : CursorState :=
  { cur with col := cur.col - n }

/-- Embedding of `CursorState::move_right` (cursor.rs line 70). -/
def CursorState.move_right (cur : CursorState) (n max_cols : Nat) : CursorState :=
  { cur with col := min ((cur.col + n) % 65536) (max_cols - 1) }

/-- Embedding of `CursorState::carriage_return` (cursor.rs line 75). -/
def CursorState.carriage_return (cur : CursorState) : CursorState :=
  { cur with col := 0 }

/-- Embedding of `CursorState::newline` (cursor.rs line 80): move to the
beginning of the next line; report whether a scroll is needed. -/
def CursorState.newline (cur : CursorState) (max_rows : Nat) : CursorState × Bool :=
  if (cur.row + 1) % 65536 ≥ max_rows then ({ cur with col := 0 }, true)
  else ({ cur with col := 0, row := (cur.row + 1) % 65536 }, false)

/-- Embedding of `CursorState::line_feed` (cursor.rs line 92). -/
def CursorState.line_feed (cur : CursorState) (max_rows : Nat) : CursorState × Bool :=
  if (cur.row + 1) % 65536 ≥ max_rows then (cur, true)
  else ({ cur with row := (cur.row + 1) % 65536 }, false)

/-- Embedding of `CursorState::advance` (cursor.rs line 102): the column is
first incremented, then compared against `max_cols`. -/
def CursorState.advance (cur : CursorState) (max_cols max_rows : Nat) : CursorState × Bool :=
  let c2 := (cur.col + 1) % 65536
  if c2 ≥ max_cols then
    CursorState.line_feed { cur with col := 0 } max_rows
  else
    ({ cur with col := c2 }, false)

/-- Embedding of `CursorState::advance_by` (cursor.rs line 113): iterate
`advance` `width` times, or-ing the needs-scroll results. -/
def CursorState.advance_by : CursorState → Nat → Nat → Nat → CursorState × Bool
  | cur, 0, _, _ => (cur, false)
  | cur, n + 1, max_cols, max_rows =>
      let r1 := cur.advance max_cols max_rows
      let r2 := CursorState.advance_by r1.1 n max_cols max_rows
      (r2.1, r1.2 || r2.2)

/-- Embedding of `CursorState::save` (cursor.rs line 124). -/
def CursorState.save (cur : CursorState) : CursorState :=
  { cur with saved := some (cur.row, cur.col) }

/-- Embedding of `CursorState::restore` (cursor.rs line 129). -/
def CursorState.restore (cur : CursorState) : CursorState :=
  match cur.saved with
  | some p => { cur with row := p.1, col := p.2 }
  | none => cur

/-- Embedding of `CursorState::move_to_column` (cursor.rs line 137). -/
def CursorState.move_to_column (cur : CursorState) (col max_cols : Nat) : CursorState :=
  { cur with col := min (col - 1) (max_cols - 1) }

/-- Embedding of `CursorState::move_to_row` (cursor.rs line 142). -/
def CursorState.move_to_row (cur : CursorState) (row max_rows : Nat) : CursorState :=
  { cur with row := min (row - 1) (max_rows - 1) }

/-! ## Screen buffer (screen.rs) -/

/-- Embedding of `Color` (screen.rs line 30); `u8` components as `Nat`. -/
inductive Color where
  | indexed (i : Nat)
  | rgb (r g b : Nat)
deriving DecidableEq

/-- Embedding of `CellAttributes` (screen.rs line 15). -/
structure CellAttributes where
  bold : Bool
  dim : Bool
  italic : Bool
  underline : Bool
  blink : Bool
  reverse : Bool
  hidden : Bool
  strikethrough : Bool
  foreground : Option Color
  background : Option Color
deriving DecidableEq

/-- Embedding of `CellAttributes::default`. -/
def CellAttributes.default : CellAttributes :=
  { bold := false, dim := false, italic := false, underline := false,
    blink := false, reverse := false, hidden := false, strikethrough := false,
    foreground := none, background := none }

/-- Embedding of `Cell` (screen.rs line 39); `width : u8` as `Nat`. -/
structure Cell where
  character : Char
  width : Nat
  attrs : CellAttributes
deriving DecidableEq

/-- Embedding of `Cell::default` (screen.rs line 51): a space of width 1. -/
def Cell.default : Cell :=
  { character := ' ', width := 1, attrs := CellAttributes.default }

/-- Embedding of `ScrollbackLine` (screen.rs line 62). -/
structure ScrollbackLine where
  plain : String
  raw : String
deriving DecidableEq

/-- Embedding of `ScreenBuffer` (screen.rs line 72). -/
structure ScreenBuffer where
  cells : List (List Cell)
  cursor : CursorState
  rows : Nat
  cols : Nat
  current_attrs : CellAttributes
  scrolled_lines : List ScrollbackLine
  alternate_active : Bool
  main_buffer : Option (List (List Cell))
  main_cursor : Option CursorState
  title : Option String
deriving DecidableEq

/-- Embedding of `ScreenBuffer::new` (screen.rs line 108). -/
def ScreenBuffer.new (rows cols : Nat) : ScreenBuffer :=
  { cells := List.replicate rows (List.replicate cols Cell.default),
    cursor := CursorState.new,
    rows := rows, cols := cols,
    current_attrs := CellAttributes.default,
    scrolled_lines := [],
    alternate_active := false,
    main_buffer := none,
    main_cursor := none,
    title := none }

/-- Write `cell` at position `(r, c)` of the grid; out-of-range indices leave
the grid unchanged, like the bound-guarded assignments in screen.rs. -/
def setCell (cells : List (List Cell)) (r c : Nat) (cell : Cell) : List (List Cell) :=
  cells.set r ((cells.getD r []).set c cell)

/-- Embedding of `ScreenBuffer::scroll_up` (screen.rs line 204).  The
displaced rows are recorded on `scrolled_lines` only when the alternate
buffer is not active; `raw` is a copy of `plain` (screen.rs line 215).
The `usize`/`u16` round-trip on `n` is the identity for the values that
pass the `n < cells.len()` guard. -/
def ScreenBuffer.scroll_up (s : ScreenBuffer) (n : Nat) : ScreenBuffer :=
  if n = 0 ∨ n ≥ s.cells.length then s
  else
    let cells2 := s.cells.drop n ++ List.replicate n (List.replicate s.cols Cell.default)
    let cursor2 :=
      if s.cursor.row ≥ n then { s.cursor with row := s.cursor.row - n }
      else { s.cursor with row := 0 }
    if s.alternate_active then
      { s with cells := cells2, cursor := cursor2 }
    else
      let scrolled := (s.cells.take n).map fun row =>
        let plain : String := ⟨row.map Cell.character⟩
        ({ plain := plain, raw := plain } : ScrollbackLine)
      { s with cells := cells2, cursor := cursor2,
               scrolled_lines := s.scrolled_lines ++ scrolled }

/-- First phase of `ScreenBuffer::put_char` (screen.rs lines 167-174): a
width-2 character whose continuation would not fit wraps to the beginning
of the next line first, scrolling if the cursor was on the last row. -/
def ScreenBuffer.put_char_wrap (s : ScreenBuffer) (width : Nat) : ScreenBuffer :=
  if width = 2 ∧ s.cursor.col + 1 ≥ s.cols then
    if (s.cursor.newline s.rows).2 then
      ({ s with cursor := (s.cursor.newline s.rows).1 } : ScreenBuffer).scroll_up 1
    else { s with cursor := (s.cursor.newline s.rows).1 }
  else s

/-- Second phase of `ScreenBuffer::put_char` (screen.rs lines 176-194):
write the cell at the cursor if it is in bounds, and for a wide character
also write a width-0 continuation cell to its right if that is in bounds. -/
def ScreenBuffer.put_char_write (s : ScreenBuffer) (c : Char) (width : Nat) : ScreenBuffer :=
  { s with cells :=
      if s.cursor.row < s.cells.length ∧
          s.cursor.col < (s.cells.getD s.cursor.row []).length then
        if width = 2 ∧ s.cursor.col + 1 < (s.cells.getD s.cursor.row []).length then
          setCell
            (setCell s.cells s.cursor.row s.cursor.col
              { character := c, width := width, attrs := s.current_attrs })
            s.cursor.row (s.cursor.col + 1)
            { character := ' ', width := 0, attrs := s.current_attrs }
        else
          setCell s.cells s.cursor.row s.cursor.col
            { character := c, width := width, attrs := s.current_attrs }
      else s.cells }

/-- Third phase of `ScreenBuffer::put_char` (screen.rs lines 196-200):
advance the cursor by `width` columns, scrolling up once if any advance
wrapped past the last row. -/
def ScreenBuffer.put_char_advance (s : ScreenBuffer) (width : Nat) : ScreenBuffer :=
  if (s.cursor.advance_by width s.cols s.rows).2 then
    ({ s with cursor := (s.cursor.advance_by width s.cols s.rows).1 } : ScreenBuffer).scroll_up 1
  else { s with cursor := (s.cursor.advance_by width s.cols s.rows).1 }

/-- Embedding of `ScreenBuffer::put_char` (screen.rs line 164), parametrized
by the display-width oracle `w` standing for the external unicode-width
crate; `w c % 256` models the `as u8` cast of `c.width().unwrap_or(1)`.
The method body runs the three phases above in order. -/
def ScreenBuffer.put_char (w : Char → Nat) (s : ScreenBuffer) (c : Char) : ScreenBuffer :=
  ((s.put_char_wrap (w c % 256)).put_char_write c (w c % 256)).put_char_advance (w c % 256)

/-- Embedding of `ScreenBuffer::scroll_down` (screen.rs line 236). -/
def ScreenBuffer.scroll_down (s : ScreenBuffer) (n : Nat) : ScreenBuffer :=
  if n = 0 ∨ n ≥ s.cells.length then s
  else
    { s with
        cells := List.replicate n (List.replicate s.cols Cell.default) ++
          s.cells.take (s.cells.length - n),
        cursor := { s.cursor with
          row := min ((s.cursor.row + n) % 65536) (s.rows - 1) } }

/-- Clear row `r` of the grid (the `clear_row` helper, screen.rs line 308). -/
def clearRow (cells : List (List Cell)) (r : Nat) : List (List Cell) :=
  cells.set r ((cells.getD r []).map fun _ => Cell.default)

/-- Embedding of `ScreenBuffer::erase_line_right` (screen.rs line 280). -/
def ScreenBuffer.erase_line_right (s : ScreenBuffer) : ScreenBuffer :=
  let row := s.cursor.row
  let col := s.cursor.col
  if row < s.cells.length then
    let r2 := (s.cells.getD row []).mapIdx fun i cell =>
      if col ≤ i then Cell.default else cell
    { s with cells := s.cells.set row r2 }
  else s

/-- Embedding of `ScreenBuffer::erase_line_left` (screen.rs line 291): cells
`0 ..= min col (len-1)` are cleared.  (On a zero-length row the Rust loop
would index out of bounds; that case is unreachable since every row has
`cols ≥ 1` cells.) -/
def ScreenBuffer.erase_line_left (s : ScreenBuffer) : ScreenBuffer :=
  let row := s.cursor.row
  let col := s.cursor.col
  if row < s.cells.length then
    let len := (s.cells.getD row []).length
    let r2 := (s.cells.getD row []).mapIdx fun i cell =>
      if i ≤ min col (len - 1) then Cell.default else cell
    { s with cells := s.cells.set row r2 }
  else s

/-- Embedding of `ScreenBuffer::erase_below` (screen.rs line 255). -/
def ScreenBuffer.erase_below (s : ScreenBuffer) : ScreenBuffer :=
  let s1 := s.erase_line_right
  { s1 with cells := s1.cells.mapIdx fun i r =>
      if s1.cursor.row + 1 ≤ i then r.map (fun _ => Cell.default) else r }

/-- Embedding of `ScreenBuffer::erase_above` (screen.rs line 264). -/
def ScreenBuffer.erase_above (s : ScreenBuffer) : ScreenBuffer :=
  let s1 := s.erase_line_left
  { s1 with cells := s1.cells.mapIdx fun i r =>
      if i < s1.cursor.row then r.map (fun _ => Cell.default) else r }

/-- Embedding of `ScreenBuffer::erase_all` (screen.rs line 273). -/
def ScreenBuffer.erase_all (s : ScreenBuffer) : ScreenBuffer :=
  { s with cells := s.cells.map fun r => r.map fun _ => Cell.default }

/-- Embedding of `ScreenBuffer::erase_line` (screen.rs line 302). -/
def ScreenBuffer.erase_line (s : ScreenBuffer) : ScreenBuffer :=
  { s with cells := clearRow s.cells s.cursor.row }

/-- Embedding of `ScreenBuffer::take_scrolled_lines` (screen.rs line 317). -/
def ScreenBuffer.take_scrolled_lines (s : ScreenBuffer) : List ScrollbackLine × ScreenBuffer :=
  (s.scrolled_lines, { s with scrolled_lines := [] })

/-- Embedding of `ScreenBuffer::set_title` (screen.rs line 353). -/
def ScreenBuffer.set_title (s : ScreenBuffer) (t : String) : ScreenBuffer :=
  { s with title := some t }

/-- Embedding of `ScreenBuffer::enter_alternate_buffer` (screen.rs line 363). -/
def ScreenBuffer.enter_alternate_buffer (s : ScreenBuffer) : ScreenBuffer :=
  if s.alternate_active then s
  else
    { s with alternate_active := true,
             main_buffer := some s.cells,
             cells := List.replicate s.rows (List.replicate s.cols Cell.default),
             main_cursor := some s.cursor,
             cursor := CursorState.new }

/-- Embedding of `ScreenBuffer::exit_alternate_buffer` (screen.rs line 377):
`Option::take` empties both saved slots whether or not they were set. -/
def ScreenBuffer.exit_alternate_buffer (s : ScreenBuffer) : ScreenBuffer :=
  if !s.alternate_active then s
  else
    { s with alternate_active := false,
             cells := s.main_buffer.getD s.cells,
             main_buffer := none,
             cursor := s.main_cursor.getD s.cursor,
             main_cursor := none }

/-- Embedding of `ScreenBuffer::tab` (screen.rs line 397); the multiplication
on `u16` is wrapping-capable, hence the `% 65536`. -/
def ScreenBuffer.tab (s : ScreenBuffer) : ScreenBuffer :=
  { s with cursor := { s.cursor with
      col := min ((s.cursor.col / 8 + 1) * 8 % 65536) (s.cols - 1) } }

/-- Embedding of `ScreenBuffer::backspace` (screen.rs line 404). -/
def ScreenBuffer.backspace (s : ScreenBuffer) : ScreenBuffer :=
  { s with cursor := s.cursor.move_left 1 }

/-- Embedding of `ScreenBuffer::carriage_return` (screen.rs line 409). -/
def ScreenBuffer.carriage_return (s : ScreenBuffer) : ScreenBuffer :=
  { s with cursor := s.cursor.carriage_return }

/-- Embedding of `ScreenBuffer::line_feed` (screen.rs line 414). -/
def ScreenBuffer.line_feed (s : ScreenBuffer) : ScreenBuffer :=
  let r := s.cursor.line_feed s.rows
  let s1 := { s with cursor := r.1 }
  if r.2 then s1.scroll_up 1 else s1

/-- Embedding of `ScreenBuffer::newline` (screen.rs line 422): CR then LF. -/
def ScreenBuffer.newline (s : ScreenBuffer) : ScreenBuffer :=
  s.carriage_return.line_feed

/-- Embedding of `ScreenBuffer::insert_lines` (screen.rs line 428): the
bottom `min n (len - row)` rows are dropped and that many blank rows are
inserted at the cursor row. -/
def ScreenBuffer.insert_lines (s : ScreenBuffer) (n : Nat) : ScreenBuffer :=
  let row := s.cursor.row
  if row ≥ s.cells.length then s
  else
    let rc := min n (s.cells.length - row)
    let cells1 := s.cells.take (s.cells.length - rc)
    { s with cells := cells1.take row ++
        List.replicate rc (List.replicate s.cols Cell.default) ++ cells1.drop row }

/-- Embedding of `ScreenBuffer::delete_lines` (screen.rs line 447): remove
`min n (len - row)` rows at the cursor and append that many blank rows. -/
def ScreenBuffer.delete_lines (s : ScreenBuffer) (n : Nat) : ScreenBuffer :=
  let row := s.cursor.row
  if row ≥ s.cells.length then s
  else
    let rc := min n (s.cells.length - row)
    { s with cells := s.cells.take row ++ s.cells.drop (row + rc) ++
        List.replicate rc (List.replicate s.cols Cell.default) }

/-- One iteration of the `insert_chars` loop (screen.rs line 483): if the
cursor column is in range, pop the last cell and insert a blank at the
cursor column. -/
def insertCharStep (col : Nat) (r : List Cell) : List Cell :=
  if col < r.length then r.dropLast.insertIdx col Cell.default else r

/-- Embedding of `ScreenBuffer::insert_chars` (screen.rs line 471). -/
def ScreenBuffer.insert_chars (s : ScreenBuffer) (n : Nat) : ScreenBuffer :=
  let row := s.cursor.row
  if row ≥ s.cells.length then s
  else
    let r2 := (insertCharStep s.cursor.col)^[n] (s.cells.getD row [])
    { s with cells := s.cells.set row r2 }

/-- One iteration of the `delete_chars` loop (screen.rs line 504): if the
cursor column is in range, remove the cell there and push a blank at the
end. -/
def deleteCharStep (col : Nat) (r : List Cell) : List Cell :=
  if col < r.length then r.eraseIdx col ++ [Cell.default] else r

/-- Embedding of `ScreenBuffer::delete_chars` (screen.rs line 492). -/
def ScreenBuffer.delete_chars (s : ScreenBuffer) (n : Nat) : ScreenBuffer :=
  let row := s.cursor.row
  if row ≥ s.cells.length then s
  else
    let r2 := (deleteCharStep s.cursor.col)^[n] (s.cells.getD row [])
    { s with cells := s.cells.set row r2 }

/-! ## Screen operations driven by the emulator

`Op` enumerates every mutation that `ScreenPerformer` (emulator.rs) can
apply to the screen buffer or its cursor while processing input bytes:
printable characters, C0 controls, CSI dispatches (cursor motion, erase,
edit, scroll, SGR, private modes, save/restore) and ESC dispatches
(index, next-line, reverse-index, reset).  `take_scrolled` is the
`flush_scrollback` drain performed after each byte. -/

/-- One screen / cursor mutation as invoked by the emulator. -/
inductive Op where
  | put_char (c : Char)
  | newline
  | carriage_return
  | line_feed
  | tab
  | backspace
  | erase_below
  | erase_above
  | erase_all
  | erase_line
  | erase_line_left
  | erase_line_right
  | scroll_up (n : Nat)
  | scroll_down (n : Nat)
  | insert_lines (n : Nat)
  | delete_lines (n : Nat)
  | insert_chars (n : Nat)
  | delete_chars (n : Nat)
  | enter_alternate
  | exit_alternate
  | take_scrolled
  | cursor_up (n : Nat)
  | cursor_down (n : Nat)
  | cursor_left (n : Nat)
  | cursor_right (n : Nat)
  | cursor_to (r c : Nat)
  | cursor_to_column (c : Nat)
  | cursor_to_row (r : Nat)
  | cursor_save
  | cursor_restore
  | cursor_visible (b : Bool)
  | set_attrs (a : CellAttributes)
  | reset_attrs
  | set_title (t : String)
  | reset
deriving DecidableEq

/-- Apply one operation to the screen, exactly as the corresponding
dispatch arm of emulator.rs does (cursor motions go through `cursor_mut()`
with the screen dimensions; `reset` is ESC `c`, which replaces the buffer
with a fresh one at the current dimensions; `set_attrs` stands for the
effect of any SGR parameter run on `current_attrs`). -/
def applyOp (w : Char → Nat) (s : ScreenBuffer) : Op → ScreenBuffer
  | .put_char c => s.put_char w c
  | .newline => s.newline
  | .carriage_return => s.carriage_return
  | .line_feed => s.line_feed
  | .tab => s.tab
  | .backspace => s.backspace
  | .erase_below => s.erase_below
  | .erase_above => s.erase_above
  | .erase_all => s.erase_all
  | .erase_line => s.erase_line
  | .erase_line_left => s.erase_line_left
  | .erase_line_right => s.erase_line_right
  | .scroll_up n => s.scroll_up n
  | .scroll_down n => s.scroll_down n
  | .insert_lines n => s.insert_lines n
  | .delete_lines n => s.delete_lines n
  | .insert_chars n => s.insert_chars n
  | .delete_chars n => s.delete_chars n
  | .enter_alternate => s.enter_alternate_buffer
  | .exit_alternate => s.exit_alternate_buffer
  | .take_scrolled => s.take_scrolled_lines.2
  | .cursor_up n => { s with cursor := s.cursor.move_up n }
  | .cursor_down n => { s with cursor := s.cursor.move_down n s.rows }
  | .cursor_left n => { s with cursor := s.cursor.move_left n }
  | .cursor_right n => { s with cursor := s.cursor.move_right n s.cols }
  | .cursor_to r c => { s with cursor := s.cursor.move_to r c s.rows s.cols }
  | .cursor_to_column c => { s with cursor := s.cursor.move_to_column c s.cols }
  | .cursor_to_row r => { s with cursor := s.cursor.move_to_row r s.rows }
  | .cursor_save => { s with cursor := s.cursor.save }
  | .cursor_restore => { s with cursor := s.cursor.restore }
  | .cursor_visible b => { s with cursor := { s.cursor with visible := b } }
  | .set_attrs a => { s with current_attrs := a }
  | .reset_attrs => { s with current_attrs := CellAttributes.default }
  | .set_title t => s.set_title t
  | .reset => ScreenBuffer.new s.rows s.cols

/-- Apply a sequence of operations from left to right. -/
def applyOps (w : Char → Nat) (ops : List Op) (s : ScreenBuffer) : ScreenBuffer :=
  ops.foldl (applyOp w) s

/-! ## Shape and cursor invariants (for C1) -/

/-- Every row of the grid has exactly `C` cells. -/
def rowsOk (C : Nat) (cells : List (List Cell)) : Prop :=
  ∀ r ∈ cells, r.length = C

/-- The cursor (and its saved position, if any) lies inside an `R × C`
screen. -/
def cursorOk (R C : Nat) (cur : CursorState) : Prop :=
  cur.row < R ∧ cur.col < C ∧ ∀ p ∈ cur.saved, p.1 < R ∧ p.2 < C

/-- The full inductive invariant of a screen buffer of logical size
`R × C`: dimension fields, grid shape, cursor bounds, and the same for
the saved main grid and main cursor while the alternate buffer is in
use. -/
structure ScreenInv (R C : Nat) (s : ScreenBuffer) : Prop where
  rpos : 1 ≤ R
  cpos : 1 ≤ C
  rows_eq : s.rows = R
  cols_eq : s.cols = C
  clen : s.cells.length = R
  rlen : rowsOk C s.cells
  cur : cursorOk R C s.cursor
  mainb : ∀ b ∈ s.main_buffer, b.length = R ∧ rowsOk C b
  mainc : ∀ cu ∈ s.main_cursor, cursorOk R C cu

theorem min_sub_one_lt {R a : Nat} (hR : 1 ≤ R) : min a (R - 1) < R :=
  lt_of_le_of_lt (min_le_right _ _) (by omega)

theorem rowsOk_replicate (C n : Nat) :
    rowsOk C (List.replicate n (List.replicate C Cell.default)) := by
  intro r hr
  rw [List.eq_of_mem_replicate hr]
  exact List.length_replicate C _

theorem length_setCell (cells : List (List Cell)) (r c : Nat) (cell : Cell) :
    (setCell cells r c cell).length = cells.length := by
  simp [setCell]

theorem rowsOk_setCell {C : Nat} {cells : List (List Cell)} {r c : Nat} {cell : Cell}
    (h : rowsOk C cells) : rowsOk C (setCell cells r c cell) := by
  intro row hrow
  rcases Nat.lt_or_ge r cells.length with hr | hr
  · rcases List.mem_or_eq_of_mem_set hrow with h1 | h1
    · exact h row h1
    · subst h1
      rw [List.length_set]
      have : cells.getD r [] = cells[r] := by
        simp [List.getD_eq_getElem?_getD, List.getElem?_eq_getElem hr]
      rw [this]
      exact h _ (List.getElem_mem hr)
  · rw [setCell, List.set_eq_of_length_le (by simpa using hr)] at hrow
    exact h row hrow

theorem rowsOk_clearRow {C : Nat} {cells : List (List Cell)} {r : Nat}
    (h : rowsOk C cells) : rowsOk C (clearRow cells r) := by
  intro row hrow
  rcases Nat.lt_or_ge r cells.length with hr | hr
  · rcases List.mem_or_eq_of_mem_set hrow with h1 | h1
    · exact h row h1
    · subst h1
      rw [List.length_map]
      have : cells.getD r [] = cells[r] := by
        simp [List.getD_eq_getElem?_getD, List.getElem?_eq_getElem hr]
      rw [this]
      exact h _ (List.getElem_mem hr)
  · rw [clearRow, List.set_eq_of_length_le (by simpa using hr)] at hrow
    exact h row hrow

theorem cursorOk_move_to {R C : Nat} {cur : CursorState} (hR : 1 ≤ R) (hC : 1 ≤ C)
    (h : cursorOk R C cur) (r c : Nat) :
    cursorOk R C (cur.move_to r c R C) :=
  ⟨min_sub_one_lt hR, min_sub_one_lt hC, h.2.2⟩

theorem cursorOk_move_up {R C : Nat} {cur : CursorState} (h : cursorOk R C cur) (n : Nat) :
    cursorOk R C (cur.move_up n) :=
  ⟨lt_of_le_of_lt (Nat.sub_le _ _) h.1, h.2.1, h.2.2⟩

theorem cursorOk_move_down {R C : Nat} {cur : CursorState} (hR : 1 ≤ R)
    (h : cursorOk R C cur) (n : Nat) :
    cursorOk R C (cur.move_down n R) :=
  ⟨min_sub_one_lt hR, h.2.1, h.2.2⟩

theorem cursorOk_move_left {R C : Nat} {cur : CursorState} (h : cursorOk R C cur) (n : Nat) :
    cursorOk R C (cur.move_left n) :=
  ⟨h.1, lt_of_le_of_lt (Nat.sub_le _ _) h.2.1, h.2.2⟩

theorem cursorOk_move_right {R C : Nat} {cur : CursorState} (hC : 1 ≤ C)
    (h : cursorOk R C cur) (n : Nat) :
    cursorOk R C (cur.move_right n C) :=
  ⟨h.1, min_sub_one_lt hC, h.2.2⟩

theorem cursorOk_carriage_return {R C : Nat} {cur : CursorState} (hC : 1 ≤ C)
    (h : cursorOk R C cur) : cursorOk R C cur.carriage_return :=
  ⟨h.1, hC, h.2.2⟩

theorem cursorOk_newline {R C : Nat} {cur : CursorState} (hC : 1 ≤ C)
    (h : cursorOk R C cur) : cursorOk R C (cur.newline R).1 := by
  rw [CursorState.newline]
  split
  · exact ⟨h.1, hC, h.2.2⟩
  · next hcond =>
      refine ⟨?_, hC, h.2.2⟩
      show (cur.row + 1) % 65536 < R
      omega

theorem cursorOk_line_feed {R C : Nat} {cur : CursorState}
    (h : cursorOk R C cur) : cursorOk R C (cur.line_feed R).1 := by
  rw [CursorState.line_feed]
  split
  · exact h
  · next hcond =>
      refine ⟨?_, h.2.1, h.2.2⟩
      show (cur.row + 1) % 65536 < R
      omega

theorem cursorOk_advance {R C : Nat} {cur : CursorState} (hC : 1 ≤ C)
    (h : cursorOk R C cur) : cursorOk R C (cur.advance C R).1 := by
  rw [CursorState.advance]
  split
  · exact cursorOk_line_feed ⟨h.1, hC, h.2.2⟩
  · next hcond =>
      refine ⟨h.1, ?_, h.2.2⟩
      show (cur.col + 1) % 65536 < C
      omega

theorem cursorOk_advance_by {R C : Nat} (hC : 1 ≤ C) :
    ∀ (n : Nat) (cur : CursorState), cursorOk R C cur →
      cursorOk R C (cur.advance_by n C R).1 := by
  intro n
  induction n with
  | zero => intro cur h; exact h
  | succ m ih =>
      intro cur h
      rw [CursorState.advance_by]
      exact ih _ (cursorOk_advance hC h)

theorem cursorOk_save {R C : Nat} {cur : CursorState} (h : cursorOk R C cur) :
    cursorOk R C cur.save := by
  refine ⟨h.1, h.2.1, ?_⟩
  intro p hp
  rw [CursorState.save] at hp
  simp only [Option.mem_def, Option.some.injEq] at hp
  subst hp
  exact ⟨h.1, h.2.1⟩

theorem cursorOk_restore {R C : Nat} {cur : CursorState} (h : cursorOk R C cur) :
    cursorOk R C cur.restore := by
  rw [CursorState.restore]
  rcases hs : cur.saved with _ | p
  · exact h
  · have hp := h.2.2 p (by rw [hs]; rfl)
    exact ⟨hp.1, hp.2, by simpa [hs] using h.2.2⟩

theorem cursorOk_move_to_column {R C : Nat} {cur : CursorState} (hC : 1 ≤ C)
    (h : cursorOk R C cur) (c : Nat) :
    cursorOk R C (cur.move_to_column c C) :=
  ⟨h.1, min_sub_one_lt hC, h.2.2⟩

theorem cursorOk_move_to_row {R C : Nat} {cur : CursorState} (hR : 1 ≤ R)
    (h : cursorOk R C cur) (r : Nat) :
    cursorOk R C (cur.move_to_row r R) :=
  ⟨min_sub_one_lt hR, h.2.1, h.2.2⟩

theorem cursorOk_visible {R C : Nat} {cur : CursorState} (b : Bool)
    (h : cursorOk R C cur) : cursorOk R C { cur with visible := b } :=
  ⟨h.1, h.2.1, h.2.2⟩

theorem cursorOk_new {R C : Nat} (hR : 1 ≤ R) (hC : 1 ≤ C) :
    cursorOk R C CursorState.new :=
  ⟨hR, hC, by simp [CursorState.new]⟩

theorem rowsOk_set_row {C : Nat} {cells : List (List Cell)} {r : Nat} {newRow : List Cell}
    (h : rowsOk C cells) (hlen : r < cells.length → newRow.length = C) :
    rowsOk C (cells.set r newRow) := by
  intro row hrow
  rcases Nat.lt_or_ge r cells.length with hr | hr
  · rcases List.mem_or_eq_of_mem_set hrow with h1 | h1
    · exact h row h1
    · subst h1
      exact hlen hr
  · rw [List.set_eq_of_length_le hr] at hrow
    exact h row hrow

theorem getD_row_length {C : Nat} {cells : List (List Cell)} {r : Nat}
    (h : rowsOk C cells) (hr : r < cells.length) :
    (cells.getD r []).length = C := by
  have he : cells.getD r [] = cells[r] := by
    simp [List.getD_eq_getElem?_getD, List.getElem?_eq_getElem hr]
  rw [he]
  exact h _ (List.getElem_mem hr)

theorem rowsOk_mapIdx {C : Nat} {cells : List (List Cell)} {f : Nat → List Cell → List Cell}
    (h : rowsOk C cells) (hf : ∀ i r, r.length = C → (f i r).length = C) :
    rowsOk C (cells.mapIdx f) := by
  intro row hrow
  obtain ⟨i, hi, hrow⟩ := List.mem_mapIdx.mp hrow
  subst hrow
  exact hf i _ (h _ (List.getElem_mem hi))

theorem inv_with_cursor {R C : Nat} {s : ScreenBuffer} (h : ScreenInv R C s)
    {cur : CursorState} (hc : cursorOk R C cur) :
    ScreenInv R C { s with cursor := cur } :=
  ⟨h.rpos, h.cpos, h.rows_eq, h.cols_eq, h.clen, h.rlen, hc, h.mainb, h.mainc⟩

theorem inv_with_cells {R C : Nat} {s : ScreenBuffer} (h : ScreenInv R C s)
    {cells : List (List Cell)} (h1 : cells.length = R) (h2 : rowsOk C cells) :
    ScreenInv R C { s with cells := cells } :=
  ⟨h.rpos, h.cpos, h.rows_eq, h.cols_eq, h1, h2, h.cur, h.mainb, h.mainc⟩

theorem new_inv {R C : Nat} (hR : 1 ≤ R) (hC : 1 ≤ C) :
    ScreenInv R C (ScreenBuffer.new R C) := by
  refine ⟨hR, hC, rfl, rfl, by simp [ScreenBuffer.new], ?_, cursorOk_new hR hC, ?_, ?_⟩
  · exact rowsOk_replicate C R
  · intro b hb
    simp [ScreenBuffer.new] at hb
  · intro cu hcu
    simp [ScreenBuffer.new] at hcu

theorem scroll_up_inv {R C : Nat} {s : ScreenBuffer} (h : ScreenInv R C s) (n : Nat) :
    ScreenInv R C (s.scroll_up n) := by
  rw [ScreenBuffer.scroll_up]
  split
  · exact h
  · next hguard =>
      push_neg at hguard
      have hcl := h.clen
      have hn : n < s.cells.length := by omega
      have hlen : (s.cells.drop n ++
          List.replicate n (List.replicate s.cols Cell.default)).length = R := by
        simp
        omega
      have hrows : rowsOk C (s.cells.drop n ++
          List.replicate n (List.replicate s.cols Cell.default)) := by
        intro row hrow
        rcases List.mem_append.mp hrow with h1 | h1
        · exact h.rlen row (List.mem_of_mem_drop h1)
        · rw [List.eq_of_mem_replicate h1]
          simp [h.cols_eq]
      have hcur1 : cursorOk R C { s.cursor with row := s.cursor.row - n } :=
        ⟨lt_of_le_of_lt (Nat.sub_le _ _) h.cur.1, h.cur.2.1, h.cur.2.2⟩
      have hcur2 : cursorOk R C { s.cursor with row := 0 } :=
        ⟨h.rpos, h.cur.2.1, h.cur.2.2⟩
      split <;> split <;>
        exact ⟨h.rpos, h.cpos, h.rows_eq, h.cols_eq, hlen, hrows, by assumption,
          h.mainb, h.mainc⟩

theorem scroll_down_inv {R C : Nat} {s : ScreenBuffer} (h : ScreenInv R C s) (n : Nat) :
    ScreenInv R C (s.scroll_down n) := by
  rw [ScreenBuffer.scroll_down]
  split
  · exact h
  · next hguard =>
      push_neg at hguard
      have hcl := h.clen
      have hn : n < s.cells.length := by omega
      refine ⟨h.rpos, h.cpos, h.rows_eq, h.cols_eq, ?_, ?_, ?_, h.mainb, h.mainc⟩
      · simp
        omega
      · intro row hrow
        rcases List.mem_append.mp hrow with h1 | h1
        · rw [List.eq_of_mem_replicate h1]
          simp [h.cols_eq]
        · exact h.rlen row (List.mem_of_mem_take h1)
      · refine ⟨?_, h.cur.2.1, h.cur.2.2⟩
        show min ((s.cursor.row + n) % 65536) (s.rows - 1) < R
        rw [h.rows_eq]
        exact min_sub_one_lt h.rpos

theorem tab_inv {R C : Nat} {s : ScreenBuffer} (h : ScreenInv R C s) :
    ScreenInv R C s.tab := by
  rw [ScreenBuffer.tab]
  refine inv_with_cursor h ⟨h.cur.1, ?_, h.cur.2.2⟩
  show min ((s.cursor.col / 8 + 1) * 8 % 65536) (s.cols - 1) < C
  rw [h.cols_eq]
  exact min_sub_one_lt h.cpos

theorem backspace_inv {R C : Nat} {s : ScreenBuffer} (h : ScreenInv R C s) :
    ScreenInv R C s.backspace :=
  inv_with_cursor h (cursorOk_move_left h.cur 1)

theorem carriage_return_inv {R C : Nat} {s : ScreenBuffer} (h : ScreenInv R C s) :
    ScreenInv R C s.carriage_return :=
  inv_with_cursor h (cursorOk_carriage_return h.cpos h.cur)

theorem line_feed_inv {R C : Nat} {s : ScreenBuffer} (h : ScreenInv R C s) :
    ScreenInv R C s.line_feed := by
  rw [ScreenBuffer.line_feed]
  have hc : cursorOk R C (s.cursor.line_feed s.rows).1 := by
    rw [h.rows_eq]
    exact cursorOk_line_feed h.cur
  split
  · exact scroll_up_inv (inv_with_cursor h hc) 1
  · exact inv_with_cursor h hc

theorem newline_inv {R C : Nat} {s : ScreenBuffer} (h : ScreenInv R C s) :
    ScreenInv R C s.newline :=
  line_feed_inv (carriage_return_inv h)

theorem erase_line_right_inv {R C : Nat} {s : ScreenBuffer} (h : ScreenInv R C s) :
    ScreenInv R C s.erase_line_right := by
  rw [ScreenBuffer.erase_line_right]
  split
  · refine inv_with_cells h ?_ ?_
    · rw [List.length_set, h.clen]
    · refine rowsOk_set_row h.rlen fun hlt => ?_
      rw [List.length_mapIdx]
      exact getD_row_length h.rlen hlt
  · exact h

theorem erase_line_left_inv {R C : Nat} {s : ScreenBuffer} (h : ScreenInv R C s) :
    ScreenInv R C s.erase_line_left := by
  rw [ScreenBuffer.erase_line_left]
  split
  · refine inv_with_cells h ?_ ?_
    · rw [List.length_set, h.clen]
    · refine rowsOk_set_row h.rlen fun hlt => ?_
      rw [List.length_mapIdx]
      exact getD_row_length h.rlen hlt
  · exact h

theorem erase_below_inv {R C : Nat} {s : ScreenBuffer} (h : ScreenInv R C s) :
    ScreenInv R C s.erase_below := by
  have h1 := erase_line_right_inv h
  rw [ScreenBuffer.erase_below]
  refine inv_with_cells h1 ?_ ?_
  · rw [List.length_mapIdx]
    exact h1.clen
  · refine rowsOk_mapIdx h1.rlen fun i r hr => ?_
    split <;> simp [hr]

theorem erase_above_inv {R C : Nat} {s : ScreenBuffer} (h : ScreenInv R C s) :
    ScreenInv R C s.erase_above := by
  have h1 := erase_line_left_inv h
  rw [ScreenBuffer.erase_above]
  refine inv_with_cells h1 ?_ ?_
  · rw [List.length_mapIdx]
    exact h1.clen
  · refine rowsOk_mapIdx h1.rlen fun i r hr => ?_
    split <;> simp [hr]

theorem erase_all_inv {R C : Nat} {s : ScreenBuffer} (h : ScreenInv R C s) :
    ScreenInv R C s.erase_all := by
  rw [ScreenBuffer.erase_all]
  refine inv_with_cells h ?_ ?_
  · rw [List.length_map]
    exact h.clen
  · intro row hrow
    obtain ⟨r0, hr0, hmap⟩ := List.mem_map.mp hrow
    subst hmap
    simp [h.rlen r0 hr0]

theorem erase_line_inv {R C : Nat} {s : ScreenBuffer} (h : ScreenInv R C s) :
    ScreenInv R C s.erase_line := by
  rw [ScreenBuffer.erase_line]
  refine inv_with_cells h ?_ (rowsOk_clearRow h.rlen)
  rw [clearRow, List.length_set, h.clen]

theorem insert_lines_inv {R C : Nat} {s : ScreenBuffer} (h : ScreenInv R C s) (n : Nat) :
    ScreenInv R C (s.insert_lines n) := by
  rw [ScreenBuffer.insert_lines]
  split
  · exact h
  · next hrow =>
      push_neg at hrow
      have hcl := h.clen
      refine inv_with_cells h ?_ ?_
      · simp
        omega
      · intro row hmem
        simp only [List.append_assoc, List.mem_append] at hmem
        rcases hmem with h1 | h1 | h1
        · exact h.rlen row (List.mem_of_mem_take (List.mem_of_mem_take h1))
        · rw [List.eq_of_mem_replicate h1]
          simp [h.cols_eq]
        · exact h.rlen row (List.mem_of_mem_take (List.mem_of_mem_drop h1))

theorem delete_lines_inv {R C : Nat} {s : ScreenBuffer} (h : ScreenInv R C s) (n : Nat) :
    ScreenInv R C (s.delete_lines n) := by
  rw [ScreenBuffer.delete_lines]
  split
  · exact h
  · next hrow =>
      push_neg at hrow
      have hcl := h.clen
      refine inv_with_cells h ?_ ?_
      · simp
        omega
      · intro row hmem
        simp only [List.append_assoc, List.mem_append] at hmem
        rcases hmem with h1 | h1 | h1
        · exact h.rlen row (List.mem_of_mem_take h1)
        · exact h.rlen row (List.mem_of_mem_drop h1)
        · rw [List.eq_of_mem_replicate h1]
          simp [h.cols_eq]

theorem iterate_length {f : List Cell → List Cell}
    (hf : ∀ r, (f r).length = r.length) :
    ∀ (n : Nat) (r : List Cell), (f^[n] r).length = r.length := by
  intro n
  induction n with
  | zero => intro r; rfl
  | succ m ih =>
      intro r
      rw [Function.iterate_succ_apply, ih (f r), hf r]

theorem insertCharStep_length (col : Nat) (r : List Cell) :
    (insertCharStep col r).length = r.length := by
  rw [insertCharStep]
  split
  · next hlt =>
      rw [List.length_insertIdx _ _ (by rw [List.length_dropLast]; omega),
        List.length_dropLast]
      omega
  · rfl

theorem deleteCharStep_length (col : Nat) (r : List Cell) :
    (deleteCharStep col r).length = r.length := by
  rw [deleteCharStep]
  split
  · next hlt =>
      have he : (r.eraseIdx col).length = r.length - 1 := by
        rw [List.length_eraseIdx]
        simp [hlt]
      simp [he]
      omega
  · rfl

theorem insert_chars_inv {R C : Nat} {s : ScreenBuffer} (h : ScreenInv R C s) (n : Nat) :
    ScreenInv R C (s.insert_chars n) := by
  rw [ScreenBuffer.insert_chars]
  split
  · exact h
  · refine inv_with_cells h ?_ ?_
    · rw [List.length_set, h.clen]
    · refine rowsOk_set_row h.rlen fun hlt => ?_
      rw [iterate_length (insertCharStep_length s.cursor.col) n]
      exact getD_row_length h.rlen hlt

theorem delete_chars_inv {R C : Nat} {s : ScreenBuffer} (h : ScreenInv R C s) (n : Nat) :
    ScreenInv R C (s.delete_chars n) := by
  rw [ScreenBuffer.delete_chars]
  split
  · exact h
  · refine inv_with_cells h ?_ ?_
    · rw [List.length_set, h.clen]
    · refine rowsOk_set_row h.rlen fun hlt => ?_
      rw [iterate_length (deleteCharStep_length s.cursor.col) n]
      exact getD_row_length h.rlen hlt

theorem enter_alternate_inv {R C : Nat} {s : ScreenBuffer} (h : ScreenInv R C s) :
    ScreenInv R C s.enter_alternate_buffer := by
  rw [ScreenBuffer.enter_alternate_buffer]
  split
  · exact h
  · refine ⟨h.rpos, h.cpos, h.rows_eq, h.cols_eq, ?_, ?_, cursorOk_new h.rpos h.cpos, ?_, ?_⟩
    · simp [h.rows_eq]
    · rw [h.cols_eq]
      exact rowsOk_replicate C s.rows
    · intro b hb
      simp only [Option.mem_def, Option.some.injEq] at hb
      subst hb
      exact ⟨h.clen, h.rlen⟩
    · intro cu hcu
      simp only [Option.mem_def, Option.some.injEq] at hcu
      subst hcu
      exact h.cur

theorem exit_alternate_inv {R C : Nat} {s : ScreenBuffer} (h : ScreenInv R C s) :
    ScreenInv R C s.exit_alternate_buffer := by
  rw [ScreenBuffer.exit_alternate_buffer]
  split
  · exact h
  · refine ⟨h.rpos, h.cpos, h.rows_eq, h.cols_eq, ?_, ?_, ?_, ?_, ?_⟩
    · rcases hb : s.main_buffer with _ | b
      · simp [hb, h.clen]
      · simp only [hb, Option.getD_some]
        exact (h.mainb b (by rw [hb]; rfl)).1
    · rcases hb : s.main_buffer with _ | b
      · simp only [hb, Option.getD_none]
        exact h.rlen
      · simp only [hb, Option.getD_some]
        exact (h.mainb b (by rw [hb]; rfl)).2
    · rcases hc : s.main_cursor with _ | cu
      · simp only [hc, Option.getD_none]
        exact h.cur
      · simp only [hc, Option.getD_some]
        exact h.mainc cu (by rw [hc]; rfl)
    · intro b hb
      simp at hb
    · intro cu hcu
      simp at hcu

theorem take_scrolled_inv {R C : Nat} {s : ScreenBuffer} (h : ScreenInv R C s) :
    ScreenInv R C s.take_scrolled_lines.2 :=
  ⟨h.rpos, h.cpos, h.rows_eq, h.cols_eq, h.clen, h.rlen, h.cur, h.mainb, h.mainc⟩

theorem put_char_wrap_inv {R C : Nat} {s : ScreenBuffer} (h : ScreenInv R C s) (width : Nat) :
    ScreenInv R C (s.put_char_wrap width) := by
  rw [ScreenBuffer.put_char_wrap]
  have hc : cursorOk R C (s.cursor.newline s.rows).1 := by
    rw [h.rows_eq]
    exact cursorOk_newline h.cpos h.cur
  split
  · split
    · exact scroll_up_inv (inv_with_cursor h hc) 1
    · exact inv_with_cursor h hc
  · exact h

theorem put_char_write_inv {R C : Nat} {s : ScreenBuffer} (h : ScreenInv R C s)
    (c : Char) (width : Nat) : ScreenInv R C (s.put_char_write c width) := by
  rw [ScreenBuffer.put_char_write]
  refine inv_with_cells h ?_ ?_
  · split
    · split
      · rw [length_setCell, length_setCell, h.clen]
      · rw [length_setCell, h.clen]
    · exact h.clen
  · split
    · split
      · exact rowsOk_setCell (rowsOk_setCell h.rlen)
      · exact rowsOk_setCell h.rlen
    · exact h.rlen

theorem put_char_advance_inv {R C : Nat} {s : ScreenBuffer} (h : ScreenInv R C s)
    (width : Nat) : ScreenInv R C (s.put_char_advance width) := by
  rw [ScreenBuffer.put_char_advance]
  have hc : cursorOk R C (s.cursor.advance_by width s.cols s.rows).1 := by
    rw [h.rows_eq, h.cols_eq]
    exact cursorOk_advance_by h.cpos width s.cursor h.cur
  split
  · exact scroll_up_inv (inv_with_cursor h hc) 1
  · exact inv_with_cursor h hc

theorem put_char_inv {R C : Nat} {s : ScreenBuffer} (h : ScreenInv R C s)
    (w : Char → Nat) (c : Char) : ScreenInv R C (s.put_char w c) :=
  put_char_advance_inv (put_char_write_inv (put_char_wrap_inv h _) c _) _

/-- Every single emulator-driven operation preserves the screen invariant. -/
theorem applyOp_inv {R C : Nat} {s : ScreenBuffer} (h : ScreenInv R C s)
    (w : Char → Nat) (op : Op) : ScreenInv R C (applyOp w s op) := by
  cases op with
  | put_char c => exact put_char_inv h w c
  | newline => exact newline_inv h
  | carriage_return => exact carriage_return_inv h
  | line_feed => exact line_feed_inv h
  | tab => exact tab_inv h
  | backspace => exact backspace_inv h
  | erase_below => exact erase_below_inv h
  | erase_above => exact erase_above_inv h
  | erase_all => exact erase_all_inv h
  | erase_line => exact erase_line_inv h
  | erase_line_left => exact erase_line_left_inv h
  | erase_line_right => exact erase_line_right_inv h
  | scroll_up n => exact scroll_up_inv h n
  | scroll_down n => exact scroll_down_inv h n
  | insert_lines n => exact insert_lines_inv h n
  | delete_lines n => exact delete_lines_inv h n
  | insert_chars n => exact insert_chars_inv h n
  | delete_chars n => exact delete_chars_inv h n
  | enter_alternate => exact enter_alternate_inv h
  | exit_alternate => exact exit_alternate_inv h
  | take_scrolled => exact take_scrolled_inv h
  | cursor_up n => exact inv_with_cursor h (cursorOk_move_up h.cur n)
  | cursor_down n =>
      refine inv_with_cursor h ?_
      rw [h.rows_eq]
      exact cursorOk_move_down h.rpos h.cur n
  | cursor_left n => exact inv_with_cursor h (cursorOk_move_left h.cur n)
  | cursor_right n =>
      refine inv_with_cursor h ?_
      rw [h.cols_eq]
      exact cursorOk_move_right h.cpos h.cur n
  | cursor_to r c =>
      refine inv_with_cursor h ?_
      rw [h.rows_eq, h.cols_eq]
      exact cursorOk_move_to h.rpos h.cpos h.cur r c
  | cursor_to_column c =>
      refine inv_with_cursor h ?_
      rw [h.cols_eq]
      exact cursorOk_move_to_column h.cpos h.cur c
  | cursor_to_row r =>
      refine inv_with_cursor h ?_
      rw [h.rows_eq]
      exact cursorOk_move_to_row h.rpos h.cur r
  | cursor_save => exact inv_with_cursor h (cursorOk_save h.cur)
  | cursor_restore => exact inv_with_cursor h (cursorOk_restore h.cur)
  | cursor_visible b => exact inv_with_cursor h (cursorOk_visible b h.cur)
  | set_attrs a =>
      exact ⟨h.rpos, h.cpos, h.rows_eq, h.cols_eq, h.clen, h.rlen, h.cur, h.mainb, h.mainc⟩
  | reset_attrs =>
      exact ⟨h.rpos, h.cpos, h.rows_eq, h.cols_eq, h.clen, h.rlen, h.cur, h.mainb, h.mainc⟩
  | set_title t =>
      exact ⟨h.rpos, h.cpos, h.rows_eq, h.cols_eq, h.clen, h.rlen, h.cur, h.mainb, h.mainc⟩
  | reset =>
      show ScreenInv R C (ScreenBuffer.new s.rows s.cols)
      rw [h.rows_eq, h.cols_eq]
      exact new_inv h.rpos h.cpos

theorem applyOps_inv {R C : Nat} (w : Char → Nat) (ops : List Op) :
    ∀ s : ScreenBuffer, ScreenInv R C s → ScreenInv R C (applyOps w ops s) := by
  induction ops with
  | nil => intro s h; exact h
  | cons op rest ih =>
      intro s h
      exact ih (applyOp w s op) (applyOp_inv h w op)

/-- C1: for every screen created with `R ≥ 1` rows and `C ≥ 1` columns and
every sequence of emulator-driven operations (with any display-width
oracle `w`), the grid still has exactly `R` rows, every row has exactly
`C` cells, and the cursor satisfies `row < R` and `col < C`. -/
theorem c1_screen_dimensions_cursor_bounds (R C : Nat) (w : Char → Nat) (ops : List Op)
    (hR : 1 ≤ R) (hC : 1 ≤ C) :
    (applyOps w ops (ScreenBuffer.new R C)).cells.length = R ∧
    (∀ r ∈ (applyOps w ops (ScreenBuffer.new R C)).cells, r.length = C) ∧
    (applyOps w ops (ScreenBuffer.new R C)).cursor.row < R ∧
    (applyOps w ops (ScreenBuffer.new R C)).cursor.col < C := by
  have h := applyOps_inv w ops (ScreenBuffer.new R C) (new_inv hR hC)
  exact ⟨h.clen, h.rlen, h.cur.1, h.cur.2.1⟩

/-- Witness for C1 at a concrete 2 × 3 screen and a concrete operation
sequence exercising printing, scrolling, editing and the alternate
buffer. -/
theorem c1_screen_dimensions_cursor_bounds_witness :
    (applyOps (fun _ => 1)
        [Op.put_char 'A', Op.newline, Op.tab, Op.scroll_up 1, Op.insert_chars 2,
          Op.enter_alternate, Op.put_char 'B', Op.exit_alternate]
        (ScreenBuffer.new 2 3)).cells.length = 2 ∧
    (∀ r ∈ (applyOps (fun _ => 1)
        [Op.put_char 'A', Op.newline, Op.tab, Op.scroll_up 1, Op.insert_chars 2,
          Op.enter_alternate, Op.put_char 'B', Op.exit_alternate]
        (ScreenBuffer.new 2 3)).cells, r.length = 3) ∧
    (applyOps (fun _ => 1)
        [Op.put_char 'A', Op.newline, Op.tab, Op.scroll_up 1, Op.insert_chars 2,
          Op.enter_alternate, Op.put_char 'B', Op.exit_alternate]
        (ScreenBuffer.new 2 3)).cursor.row < 2 ∧
    (applyOps (fun _ => 1)
        [Op.put_char 'A', Op.newline, Op.tab, Op.scroll_up 1, Op.insert_chars 2,
          Op.enter_alternate, Op.put_char 'B', Op.exit_alternate]
        (ScreenBuffer.new 2 3)).cursor.col < 3 :=
  c1_screen_dimensions_cursor_bounds 2 3 (fun _ => 1)
    [Op.put_char 'A', Op.newline, Op.tab, Op.scroll_up 1, Op.insert_chars 2,
      Op.enter_alternate, Op.put_char 'B', Op.exit_alternate]
    (by decide) (by decide)

/-! ## Wide-character continuation check (for C5) -/

/-- Display-width oracle agreeing with the unicode-width crate on the
characters of the C5 failing input: the CJK character is two columns
wide, everything else one. -/
def cjkWidth : Char → Nat :=
  fun c => if c = '你' then 2 else 1

/-- Check one row for C5's invariant: every width-2 cell is immediately
followed by a width-0 cell whenever a next cell exists. -/
def rowWideOk : List Cell → Bool
  | a :: b :: rest => (decide (a.width ≠ 2) || decide (b.width = 0)) && rowWideOk (b :: rest)
  | _ => true

/-- C5's invariant over the whole grid. -/
def wideContOk (s : ScreenBuffer) : Bool :=
  s.cells.all rowWideOk

/-- C5 fails on the code: the byte sequence `你`, BS, `A` (print wide char,
backspace onto its continuation cell, print an ASCII char) leaves the
width-2 cell immediately followed by a width-1 cell.  The operation list
is exactly what the emulator performs on those bytes, including the
scrollback drain after each byte. -/
theorem c5_wide_continuation_violated :
    wideContOk (applyOps cjkWidth
      [Op.put_char '你', Op.take_scrolled, Op.backspace, Op.put_char 'A', Op.take_scrolled]
      (ScreenBuffer.new 2 4)) = false ∧
    ((applyOps cjkWidth
      [Op.put_char '你', Op.take_scrolled, Op.backspace, Op.put_char 'A', Op.take_scrolled]
      (ScreenBuffer.new 2 4)).cells.getD 0 []).map Cell.width = [2, 1, 1, 1] := by
  decide

/-- C10: `enter_alternate_buffer` and `exit_alternate_buffer` are both
idempotent, entering while the alternate buffer is already active is a
no-op, and exiting while it is not active is a no-op. -/
theorem c10_alternate_buffer_idempotent (s : ScreenBuffer) :
    s.enter_alternate_buffer.enter_alternate_buffer = s.enter_alternate_buffer ∧
    s.exit_alternate_buffer.exit_alternate_buffer = s.exit_alternate_buffer ∧
    (s.alternate_active = true → s.enter_alternate_buffer = s) ∧
    (s.alternate_active = false → s.exit_alternate_buffer = s) := by
  cases ha : s.alternate_active <;>
    simp [ScreenBuffer.enter_alternate_buffer, ScreenBuffer.exit_alternate_buffer, ha]

/-- Witness for C10 at concrete screens: exiting a fresh (non-alternate)
screen is a no-op, and entering twice equals entering once. -/
theorem c10_alternate_buffer_idempotent_witness :
    (ScreenBuffer.new 2 2).exit_alternate_buffer = ScreenBuffer.new 2 2 ∧
    (ScreenBuffer.new 2 2).enter_alternate_buffer.enter_alternate_buffer =
      (ScreenBuffer.new 2 2).enter_alternate_buffer :=
  ⟨(c10_alternate_buffer_idempotent (ScreenBuffer.new 2 2)).2.2.2 rfl,
   (c10_alternate_buffer_idempotent (ScreenBuffer.new 2 2)).1⟩

/-! ## Alternate-buffer isolation (for C2) -/

/-- State predicate holding while the alternate buffer is active: the main
grid and cursor saved on entry are intact, and the scrolled-lines queue
is empty. -/
def AltState (cells0 : List (List Cell)) (cur0 : CursorState) (t : ScreenBuffer) : Prop :=
  t.alternate_active = true ∧ t.main_buffer = some cells0 ∧
    t.main_cursor = some cur0 ∧ t.scrolled_lines = []

/-- Along an operation trace every intermediate state (the initial one
included) has an empty scrolled-lines queue. -/
def scrolledEmptyTrace (w : Char → Nat) : List Op → ScreenBuffer → Prop
  | [], t => t.scrolled_lines = []
  | op :: rest, t => t.scrolled_lines = [] ∧ scrolledEmptyTrace w rest (applyOp w t op)

theorem scroll_up_altState {cells0 : List (List Cell)} {cur0 : CursorState}
    {t : ScreenBuffer} (h : AltState cells0 cur0 t) (n : Nat) :
    AltState cells0 cur0 (t.scroll_up n) := by
  rw [ScreenBuffer.scroll_up]
  split
  · exact h
  · rw [if_pos h.1]
    split <;> exact ⟨h.1, h.2.1, h.2.2.1, h.2.2.2⟩

theorem put_char_wrap_altState {cells0 : List (List Cell)} {cur0 : CursorState}
    {t : ScreenBuffer} (h : AltState cells0 cur0 t) (width : Nat) :
    AltState cells0 cur0 (t.put_char_wrap width) := by
  rw [ScreenBuffer.put_char_wrap]
  have h2 : AltState cells0 cur0 { t with cursor := (t.cursor.newline t.rows).1 } :=
    ⟨h.1, h.2.1, h.2.2.1, h.2.2.2⟩
  split
  · split
    · exact scroll_up_altState h2 1
    · exact h2
  · exact h

theorem put_char_write_altState {cells0 : List (List Cell)} {cur0 : CursorState}
    {t : ScreenBuffer} (h : AltState cells0 cur0 t) (c : Char) (width : Nat) :
    AltState cells0 cur0 (t.put_char_write c width) :=
  ⟨h.1, h.2.1, h.2.2.1, h.2.2.2⟩

theorem put_char_advance_altState {cells0 : List (List Cell)} {cur0 : CursorState}
    {t : ScreenBuffer} (h : AltState cells0 cur0 t) (width : Nat) :
    AltState cells0 cur0 (t.put_char_advance width) := by
  rw [ScreenBuffer.put_char_advance]
  have h2 : AltState cells0 cur0
      { t with cursor := (t.cursor.advance_by width t.cols t.rows).1 } :=
    ⟨h.1, h.2.1, h.2.2.1, h.2.2.2⟩
  split
  · exact scroll_up_altState h2 1
  · exact h2

theorem line_feed_altState {cells0 : List (List Cell)} {cur0 : CursorState}
    {t : ScreenBuffer} (h : AltState cells0 cur0 t) :
    AltState cells0 cur0 t.line_feed := by
  rw [ScreenBuffer.line_feed]
  have h2 : AltState cells0 cur0 { t with cursor := (t.cursor.line_feed t.rows).1 } :=
    ⟨h.1, h.2.1, h.2.2.1, h.2.2.2⟩
  split
  · exact scroll_up_altState h2 1
  · exact h2

/-- Every operation other than `exit_alternate` and `reset` keeps the
alternate buffer active, keeps the saved main grid and cursor intact, and
keeps the scrolled-lines queue empty (`scroll_up` does not record
displaced rows while the alternate buffer is active). -/
theorem applyOp_altState {cells0 : List (List Cell)} {cur0 : CursorState}
    {t : ScreenBuffer} (w : Char → Nat) (op : Op)
    (hop : op ≠ Op.exit_alternate ∧ op ≠ Op.reset)
    (h : AltState cells0 cur0 t) : AltState cells0 cur0 (applyOp w t op) := by
  cases op with
  | put_char c =>
      exact put_char_advance_altState
        (put_char_write_altState (put_char_wrap_altState h _) c _) _
  | newline => exact line_feed_altState ⟨h.1, h.2.1, h.2.2.1, h.2.2.2⟩
  | carriage_return => exact ⟨h.1, h.2.1, h.2.2.1, h.2.2.2⟩
  | line_feed => exact line_feed_altState h
  | tab => exact ⟨h.1, h.2.1, h.2.2.1, h.2.2.2⟩
  | backspace => exact ⟨h.1, h.2.1, h.2.2.1, h.2.2.2⟩
  | erase_below =>
      show AltState cells0 cur0 t.erase_below
      rw [ScreenBuffer.erase_below, ScreenBuffer.erase_line_right]
      split <;> exact ⟨h.1, h.2.1, h.2.2.1, h.2.2.2⟩
  | erase_above =>
      show AltState cells0 cur0 t.erase_above
      rw [ScreenBuffer.erase_above, ScreenBuffer.erase_line_left]
      split <;> exact ⟨h.1, h.2.1, h.2.2.1, h.2.2.2⟩
  | erase_all => exact ⟨h.1, h.2.1, h.2.2.1, h.2.2.2⟩
  | erase_line => exact ⟨h.1, h.2.1, h.2.2.1, h.2.2.2⟩
  | erase_line_left =>
      show AltState cells0 cur0 t.erase_line_left
      rw [ScreenBuffer.erase_line_left]
      split <;> exact ⟨h.1, h.2.1, h.2.2.1, h.2.2.2⟩
  | erase_line_right =>
      show AltState cells0 cur0 t.erase_line_right
      rw [ScreenBuffer.erase_line_right]
      split <;> exact ⟨h.1, h.2.1, h.2.2.1, h.2.2.2⟩
  | scroll_up n => exact scroll_up_altState h n
  | scroll_down n =>
      show AltState cells0 cur0 (t.scroll_down n)
      rw [ScreenBuffer.scroll_down]
      split <;> exact ⟨h.1, h.2.1, h.2.2.1, h.2.2.2⟩
  | insert_lines n =>
      show AltState cells0 cur0 (t.insert_lines n)
      rw [ScreenBuffer.insert_lines]
      split <;> exact ⟨h.1, h.2.1, h.2.2.1, h.2.2.2⟩
  | delete_lines n =>
      show AltState cells0 cur0 (t.delete_lines n)
      rw [ScreenBuffer.delete_lines]
      split <;> exact ⟨h.1, h.2.1, h.2.2.1, h.2.2.2⟩
  | insert_chars n =>
      show AltState cells0 cur0 (t.insert_chars n)
      rw [ScreenBuffer.insert_chars]
      split <;> exact ⟨h.1, h.2.1, h.2.2.1, h.2.2.2⟩
  | delete_chars n =>
      show AltState cells0 cur0 (t.delete_chars n)
      rw [ScreenBuffer.delete_chars]
      split <;> exact ⟨h.1, h.2.1, h.2.2.1, h.2.2.2⟩
  | enter_alternate =>
      show AltState cells0 cur0 t.enter_alternate_buffer
      rw [ScreenBuffer.enter_alternate_buffer, if_pos h.1]
      exact h
  | exit_alternate => exact absurd rfl hop.1
  | take_scrolled => exact ⟨h.1, h.2.1, h.2.2.1, rfl⟩
  | cursor_up n => exact ⟨h.1, h.2.1, h.2.2.1, h.2.2.2⟩
  | cursor_down n => exact ⟨h.1, h.2.1, h.2.2.1, h.2.2.2⟩
  | cursor_left n => exact ⟨h.1, h.2.1, h.2.2.1, h.2.2.2⟩
  | cursor_right n => exact ⟨h.1, h.2.1, h.2.2.1, h.2.2.2⟩
  | cursor_to r c => exact ⟨h.1, h.2.1, h.2.2.1, h.2.2.2⟩
  | cursor_to_column c => exact ⟨h.1, h.2.1, h.2.2.1, h.2.2.2⟩
  | cursor_to_row r => exact ⟨h.1, h.2.1, h.2.2.1, h.2.2.2⟩
  | cursor_save => exact ⟨h.1, h.2.1, h.2.2.1, h.2.2.2⟩
  | cursor_restore => exact ⟨h.1, h.2.1, h.2.2.1, h.2.2.2⟩
  | cursor_visible b => exact ⟨h.1, h.2.1, h.2.2.1, h.2.2.2⟩
  | set_attrs a => exact ⟨h.1, h.2.1, h.2.2.1, h.2.2.2⟩
  | reset_attrs => exact ⟨h.1, h.2.1, h.2.2.1, h.2.2.2⟩
  | set_title ti => exact ⟨h.1, h.2.1, h.2.2.1, h.2.2.2⟩
  | reset => exact absurd rfl hop.2

theorem altState_trace {cells0 : List (List Cell)} {cur0 : CursorState} (w : Char → Nat) :
    ∀ (ops : List Op) (t : ScreenBuffer), AltState cells0 cur0 t →
      (∀ op ∈ ops, op ≠ Op.exit_alternate ∧ op ≠ Op.reset) →
      scrolledEmptyTrace w ops t ∧ AltState cells0 cur0 (applyOps w ops t) := by
  intro ops
  induction ops with
  | nil => intro t h _; exact ⟨h.2.2.2, h⟩
  | cons op rest ih =>
      intro t h hsafe
      have hstep := applyOp_altState w op (hsafe op (List.mem_cons_self op rest)) h
      have htail := ih (applyOp w t op) hstep
        (fun o ho => hsafe o (List.mem_cons_of_mem op ho))
      exact ⟨⟨h.2.2.2, htail.1⟩, htail.2⟩

/-- C2: enter the alternate buffer from a state where it is inactive and
the scrolled-lines queue is drained, process any operations that do not
exit the alternate buffer (and do not hard-reset), then exit.  The
scrolled-lines queue — the only feed into the scrollback buffer — stays
empty throughout, and the main screen contents and cursor are restored
exactly. -/
theorem c2_alternate_buffer_isolation (w : Char → Nat) (s : ScreenBuffer) (ops : List Op)
    (hact : s.alternate_active = false) (hq : s.scrolled_lines = [])
    (hsafe : ∀ op ∈ ops, op ≠ Op.exit_alternate ∧ op ≠ Op.reset) :
    scrolledEmptyTrace w ops s.enter_alternate_buffer ∧
    (applyOps w ops s.enter_alternate_buffer).exit_alternate_buffer.cells = s.cells ∧
    (applyOps w ops s.enter_alternate_buffer).exit_alternate_buffer.cursor = s.cursor := by
  have h0 : AltState s.cells s.cursor s.enter_alternate_buffer := by
    rw [ScreenBuffer.enter_alternate_buffer, if_neg (by simp [hact])]
    exact ⟨rfl, rfl, rfl, hq⟩
  obtain ⟨htrace, hfin⟩ := altState_trace w ops s.enter_alternate_buffer h0 hsafe
  refine ⟨htrace, ?_, ?_⟩
  · rw [ScreenBuffer.exit_alternate_buffer, if_neg (by simp [hfin.1]), hfin.2.1]
    rfl
  · rw [ScreenBuffer.exit_alternate_buffer, if_neg (by simp [hfin.1]), hfin.2.2.1]
    rfl

/-- Witness for C2: a 2 × 2 screen, entering the alternate buffer, printing
enough newlines to scroll twice, then exiting. -/
theorem c2_alternate_buffer_isolation_witness :
    scrolledEmptyTrace (fun _ => 1)
      [Op.put_char 'x', Op.take_scrolled, Op.newline, Op.take_scrolled, Op.newline,
        Op.take_scrolled, Op.newline, Op.take_scrolled]
      (ScreenBuffer.new 2 2).enter_alternate_buffer ∧
    (applyOps (fun _ => 1)
      [Op.put_char 'x', Op.take_scrolled, Op.newline, Op.take_scrolled, Op.newline,
        Op.take_scrolled, Op.newline, Op.take_scrolled]
      (ScreenBuffer.new 2 2).enter_alternate_buffer).exit_alternate_buffer.cells =
      (ScreenBuffer.new 2 2).cells ∧
    (applyOps (fun _ => 1)
      [Op.put_char 'x', Op.take_scrolled, Op.newline, Op.take_scrolled, Op.newline,
        Op.take_scrolled, Op.newline, Op.take_scrolled]
      (ScreenBuffer.new 2 2).enter_alternate_buffer).exit_alternate_buffer.cursor =
      (ScreenBuffer.new 2 2).cursor :=
  c2_alternate_buffer_isolation (fun _ => 1) (ScreenBuffer.new 2 2)
    [Op.put_char 'x', Op.take_scrolled, Op.newline, Op.take_scrolled, Op.newline,
      Op.take_scrolled, Op.newline, Op.take_scrolled]
    rfl rfl (by decide)

/-! ## Scrollback buffer (scrollback.rs) -/

/-- Embedding of `ScrollbackBuffer` (scrollback.rs line 15). -/
structure ScrollbackBuffer where
  lines : List ScrollbackLine
  max_lines : Nat
deriving DecidableEq

/-- Embedding of `ScrollbackBuffer::new` (scrollback.rs line 26). -/
def ScrollbackBuffer.new (max_lines : Nat) : ScrollbackBuffer :=
  { lines := [], max_lines := max_lines }

/-- Embedding of `ScrollbackBuffer::push_line` (scrollback.rs line 44):
when already at (or past) capacity, pop the oldest line from the front,
then push the new line at the back. -/
def ScrollbackBuffer.push_line (b : ScrollbackBuffer) (l : ScrollbackLine) : ScrollbackBuffer :=
  if b.lines.length ≥ b.max_lines then
    { b with lines := b.lines.drop 1 ++ [l] }
  else
    { b with lines := b.lines ++ [l] }

/-- Embedding of `ScrollbackBuffer::push` (scrollback.rs line 34): push the
lines one at a time with the same pop-front-when-full policy. -/
def ScrollbackBuffer.push (b : ScrollbackBuffer) (ls : List ScrollbackLine) : ScrollbackBuffer :=
  ls.foldl ScrollbackBuffer.push_line b

/-- Embedding of `ScrollbackBuffer::len` (scrollback.rs line 80). -/
def ScrollbackBuffer.len (b : ScrollbackBuffer) : Nat :=
  b.lines.length

/-- Pushing no lines leaves the scrollback untouched (used to connect C2's
empty scrolled-lines queue to an unchanged scrollback). -/
theorem scrollback_push_nil (b : ScrollbackBuffer) : b.push [] = b :=
  rfl

theorem push_line_max (b : ScrollbackBuffer) (l : ScrollbackLine) :
    (b.push_line l).max_lines = b.max_lines := by
  rw [ScrollbackBuffer.push_line]
  split <;> rfl

theorem drop_succ_append {α : Type} {u v : List α} (h : 1 ≤ u.length) (k : Nat) :
    (u ++ v).drop (k + 1) = (u.drop 1 ++ v).drop k := by
  have h2 := List.drop_drop k 1 (u ++ v)
  rw [Nat.add_comm 1 k] at h2
  rw [← h2, List.drop_append_of_le_length h]

theorem push_closed_form (L : List ScrollbackLine) :
    ∀ b : ScrollbackBuffer, 1 ≤ b.max_lines → b.lines.length ≤ b.max_lines →
      (b.push L).lines = (b.lines ++ L).drop (b.lines.length + L.length - b.max_lines) := by
  induction L with
  | nil =>
      intro b hM hb
      rw [ScrollbackBuffer.push, List.foldl_nil, List.append_nil, List.length_nil,
        Nat.add_zero, Nat.sub_eq_zero_of_le hb, List.drop_zero]
  | cons x xs ih =>
      intro b hM hb
      have hstep : b.push (x :: xs) = (b.push_line x).push xs := rfl
      rw [hstep, ScrollbackBuffer.push_line]
      split
      · next hfull =>
          have hleq : b.lines.length = b.max_lines := by omega
          have h1 : (1 : Nat) ≤ b.lines.length := by omega
          have hb2 : ({ b with lines := b.lines.drop 1 ++ [x] } :
              ScrollbackBuffer).lines.length ≤
              ({ b with lines := b.lines.drop 1 ++ [x] } : ScrollbackBuffer).max_lines := by
            show (b.lines.drop 1 ++ [x]).length ≤ b.max_lines
            simp only [List.length_append, List.length_drop, List.length_singleton]
            omega
          have hih := ih { b with lines := b.lines.drop 1 ++ [x] } hM hb2
          rw [hih]
          have hamt1 : ({ b with lines := b.lines.drop 1 ++ [x] } :
              ScrollbackBuffer).lines.length + xs.length -
              ({ b with lines := b.lines.drop 1 ++ [x] } :
                ScrollbackBuffer).max_lines = xs.length := by
            show (b.lines.drop 1 ++ [x]).length + xs.length - b.max_lines = xs.length
            simp only [List.length_append, List.length_drop, List.length_singleton]
            omega
          have hamt2 : b.lines.length + (x :: xs).length - b.max_lines = xs.length + 1 := by
            simp only [List.length_cons]
            omega
          rw [hamt1, hamt2]
          show ((b.lines.drop 1 ++ [x]) ++ xs).drop xs.length =
            (b.lines ++ x :: xs).drop (xs.length + 1)
          rw [drop_succ_append h1 xs.length, List.append_assoc, List.singleton_append]
      · next hnotfull =>
          have hb2 : ({ b with lines := b.lines ++ [x] } : ScrollbackBuffer).lines.length ≤
              ({ b with lines := b.lines ++ [x] } : ScrollbackBuffer).max_lines := by
            show (b.lines ++ [x]).length ≤ b.max_lines
            simp only [List.length_append, List.length_singleton]
            omega
          have hih := ih { b with lines := b.lines ++ [x] } hM hb2
          rw [hih]
          show ((b.lines ++ [x]) ++ xs).drop
              ((b.lines ++ [x]).length + xs.length - b.max_lines) =
            (b.lines ++ x :: xs).drop (b.lines.length + (x :: xs).length - b.max_lines)
          rw [List.append_assoc, List.singleton_append]
          congr 1
          simp only [List.length_append, List.length_singleton, List.length_cons,
            List.length_nil]
          omega

/-- C8 (amended to capacity ≥ 1): after pushing the lines of `L` one at a
time into a fresh scrollback buffer of capacity `M ≥ 1`, the buffer holds
exactly the most recent `min L.length M` lines, in push order, and its
length is `min L.length M`. -/
theorem c8_scrollback_bound (M : Nat) (L : List ScrollbackLine) (hM : 1 ≤ M) :
    ((ScrollbackBuffer.new M).push L).lines = L.drop (L.length - M) ∧
    ((ScrollbackBuffer.new M).push L).len = min L.length M := by
  have h := push_closed_form L (ScrollbackBuffer.new M) hM
    (by simp [ScrollbackBuffer.new])
  constructor
  · rw [h]
    simp [ScrollbackBuffer.new]
  · rw [ScrollbackBuffer.len, h]
    simp [ScrollbackBuffer.new]
    omega

/-- Witness for C8: capacity 2, three pushed lines; the buffer retains the
last two in order. -/
theorem c8_scrollback_bound_witness :
    ((ScrollbackBuffer.new 2).push [⟨"a", "a"⟩, ⟨"b", "b"⟩, ⟨"c", "c"⟩]).lines =
      ([⟨"a", "a"⟩, ⟨"b", "b"⟩, ⟨"c", "c"⟩] : List ScrollbackLine).drop
        (([⟨"a", "a"⟩, ⟨"b", "b"⟩, ⟨"c", "c"⟩] : List ScrollbackLine).length - 2) ∧
    ((ScrollbackBuffer.new 2).push [⟨"a", "a"⟩, ⟨"b", "b"⟩, ⟨"c", "c"⟩]).len =
      min ([⟨"a", "a"⟩, ⟨"b", "b"⟩, ⟨"c", "c"⟩] : List ScrollbackLine).length 2 :=
  c8_scrollback_bound 2 [⟨"a", "a"⟩, ⟨"b", "b"⟩, ⟨"c", "c"⟩] (by decide)

/-- Counterexample to C8 as stated: with capacity `M = 0` a single push
leaves one line in the buffer (`pop_front` on an empty queue does nothing
and `push_back` still appends), so `len = 1 ≠ min 1 0 = 0`. -/
theorem c8_capacity_zero_counterexample :
    ((ScrollbackBuffer.new 0).push [⟨"a", "a"⟩]).len ≠ min 1 0 := by
  decide

/-! ## Prompt detector (prompt.rs) -/

/-- Rust `char::is_whitespace`: the Unicode White_Space code points
(this is also the regex crate's `\s` class in its default Unicode mode). -/
def isRustWhitespace (c : Char) : Bool :=
  let n := c.toNat
  (9 ≤ n && n ≤ 13) || n == 32 || n == 133 || n == 160 || n == 5760 ||
    (8192 ≤ n && n ≤ 8202) || n == 8232 || n == 8233 || n == 8239 || n == 8287 ||
    n == 12288

/-- Rust `str::trim_end`: remove trailing whitespace characters. -/
def rustTrimEnd (s : String) : String :=
  ⟨(s.data.reverse.dropWhile isRustWhitespace).reverse⟩

/-- Split a character list at every newline; like `String::split('\n')`
this always yields at least one (possibly empty) segment. -/
def splitNl : List Char → List (List Char)
  | [] => [[]]
  | c :: rest =>
      if c = '\n' then [] :: splitNl rest
      else
        match splitNl rest with
        | [] => [[c]]
        | seg :: segs => (c :: seg) :: segs

/-- Strip the `\r` of a `\r\n` line ending from a segment. -/
def stripCRData (seg : List Char) : List Char :=
  if seg.getLast? = some '\x0d' then seg.dropLast else seg

/-- Rust `str::lines`: split on `\n`; a final newline terminates the last
line instead of opening an empty one; every newline-terminated segment
loses a trailing `\r`. -/
def rustLines (s : String) : List String :=
  let segs := splitNl s.data
  match segs.getLast? with
  | none => []
  | some last =>
      if last = [] then (segs.dropLast.map stripCRData).map (fun d => (⟨d⟩ : String))
      else ((segs.dropLast.map stripCRData).map (fun d => (⟨d⟩ : String))) ++
        [(⟨last⟩ : String)]

/-- The body of the `for line in lines.iter().rev().take(2)` loop of
`PromptDetector::detect` (prompt.rs lines 40-45): return true at the
first line whose trailing-whitespace-trimmed form is non-empty and
matches. -/
def detectLoop (isMatch : String → Bool) : List String → Bool
  | [] => false
  | line :: rest =>
      if rustTrimEnd line ≠ "" ∧ isMatch (rustTrimEnd line) = true then true
      else detectLoop isMatch rest

/-- Embedding of `PromptDetector::detect` (prompt.rs line 35), parametrized
by the compiled regex's match predicate `isMatch`: the loop runs over the
last two lines of the content, most recent first. -/
def detect (isMatch : String → Bool) (content : String) : Bool :=
  detectLoop isMatch ((rustLines content).reverse.take 2)

/-- Match predicate of the default prompt pattern
`\$\s*$|#\s*$|>\s*$` (prompt.rs line 31): a string matches exactly when,
after deleting trailing `\s` characters, it ends in `$`, `#` or `>`. -/
def default_prompt_match (s : String) : Bool :=
  match (s.data.reverse.dropWhile isRustWhitespace).reverse.getLast? with
  | some d => d == '$' || d == '#' || d == '>'
  | none => false

theorem detectLoop_iff (m : String → Bool) (L : List String) :
    detectLoop m L = true ↔
      ∃ l ∈ L, rustTrimEnd l ≠ "" ∧ m (rustTrimEnd l) = true := by
  induction L with
  | nil => simp [detectLoop]
  | cons a as ih =>
      rw [detectLoop]
      by_cases hc : rustTrimEnd a ≠ "" ∧ m (rustTrimEnd a) = true
      · rw [if_pos hc]
        constructor
        · intro _
          exact ⟨a, List.mem_cons_self a as, hc⟩
        · intro _
          rfl
      · rw [if_neg hc, ih]
        constructor
        · rintro ⟨l, hl, hprop⟩
          exact ⟨l, List.mem_cons_of_mem a hl, hprop⟩
        · rintro ⟨l, hl, hprop⟩
          rcases List.mem_cons.mp hl with rfl | hl2
          · exact absurd hprop hc
          · exact ⟨l, hl2, hprop⟩

/-- C3 (amended): the detector returns true iff one of the LAST TWO lines
of the content (not only the last non-empty one) is non-empty after
trimming trailing whitespace and its trimmed form matches the prompt
regex; lines before the last two are never examined. -/
theorem c3_detect_checks_last_two_lines (isMatch : String → Bool) (content : String) :
    detect isMatch content = true ↔
      ∃ l ∈ (rustLines content).reverse.take 2,
        rustTrimEnd l ≠ "" ∧ isMatch (rustTrimEnd l) = true := by
  rw [detect]
  exact detectLoop_iff isMatch ((rustLines content).reverse.take 2)

/-- Formalization of C3 as the claim states it: true iff the last
non-empty line, with trailing whitespace trimmed, matches. -/
def spec_tail_detect (isMatch : String → Bool) (content : String) : Bool :=
  match ((rustLines content).filter (fun l => l != "")).getLast? with
  | some l => isMatch (rustTrimEnd l)
  | none => false

/-- Counterexample to C3 as stated: for the content `"$\nfoo"` the last
non-empty line is `foo`, which does not match the default prompt pattern,
yet the detector returns true because it also examines the second-to-last
line `$`. -/
theorem c3_last_nonempty_line_counterexample :
    detect default_prompt_match "$\nfoo" = true ∧
      spec_tail_detect default_prompt_match "$\nfoo" = false := by
  decide

/-! ## Key input encoding (keys.rs) -/

/-- Embedding of `TerminalError` (types.rs line 14); only the payloads the
embedded operations produce are carried. -/
inductive TerminalError where
  | pty (msg : String)
  | sessionNotFound (id : String)
  | maxSessionsReached (limit : Nat)
  | noInput
  | invalidKey (name : String)
deriving DecidableEq

/-- Embedding of `SpecialKey` (keys.rs line 15). -/
inductive SpecialKey where
  | up
  | down
  | left
  | right
  | home
  | end_
  | pageUp
  | pageDown
  | backspace
  | delete
  | insert
  | tab
  | enter
  | escape
  | f1
  | f2
  | f3
  | f4
  | f5
  | f6
  | f7
  | f8
  | f9
  | f10
  | f11
  | f12
deriving DecidableEq, Fintype

/-- Bytes of an ASCII string literal (Rust `b"..."`). -/
def sbytes (s : String) : List Nat :=
  s.data.map Char.toNat

/-- Decimal digits of a number, as bytes (what `format!` interpolates). -/
def natBytes (n : Nat) : List Nat :=
  (Nat.repr n).data.map Char.toNat

/-- Embedding of `SpecialKey::base_sequence` (keys.rs line 76). -/
def SpecialKey.base_sequence : SpecialKey → List Nat
  | .up => sbytes "\x1b[A"
  | .down => sbytes "\x1b[B"
  | .right => sbytes "\x1b[C"
  | .left => sbytes "\x1b[D"
  | .home => sbytes "\x1b[H"
  | .end_ => sbytes "\x1b[F"
  | .pageUp => sbytes "\x1b[5~"
  | .pageDown => sbytes "\x1b[6~"
  | .insert => sbytes "\x1b[2~"
  | .delete => sbytes "\x1b[3~"
  | .backspace => [0x7f]
  | .tab => sbytes "\t"
  | .enter => sbytes "\x0d"
  | .escape => sbytes "\x1b"
  | .f1 => sbytes "\x1bOP"
  | .f2 => sbytes "\x1bOQ"
  | .f3 => sbytes "\x1bOR"
  | .f4 => sbytes "\x1bOS"
  | .f5 => sbytes "\x1b[15~"
  | .f6 => sbytes "\x1b[17~"
  | .f7 => sbytes "\x1b[18~"
  | .f8 => sbytes "\x1b[19~"
  | .f9 => sbytes "\x1b[20~"
  | .f10 => sbytes "\x1b[21~"
  | .f11 => sbytes "\x1b[23~"
  | .f12 => sbytes "\x1b[24~"

/-- Embedding of `SpecialKey::supports_modifiers` (keys.rs line 108). -/
def SpecialKey.supports_modifiers : SpecialKey → Bool
  | .up | .down | .left | .right | .home | .end_ | .pageUp | .pageDown
  | .insert | .delete
  | .f1 | .f2 | .f3 | .f4 | .f5 | .f6 | .f7 | .f8 | .f9 | .f10 | .f11 | .f12 => true
  | _ => false

/-- Embedding of `KeyInput` (keys.rs line 53). -/
structure KeyInput where
  key : Option SpecialKey
  text : Option String
  ctrl : Bool
  alt : Bool
  shift : Bool
deriving DecidableEq

/-- Embedding of `KeyInput::modifier_code` (keys.rs line 273):
`1 + (shift ? 1 : 0) + (alt ? 2 : 0) + (ctrl ? 4 : 0)`. -/
def KeyInput.modifier_code (inp : KeyInput) : Nat :=
  1 + (if inp.shift then 1 else 0) + (if inp.alt then 2 else 0) +
    (if inp.ctrl then 4 else 0)

/-- Rust `char::is_ascii_alphabetic`. -/
def isAsciiAlphabetic (c : Char) : Bool :=
  (65 ≤ c.toNat && c.toNat ≤ 90) || (97 ≤ c.toNat && c.toNat ≤ 122)

/-- The control code of a letter: `uppercase(letter) - 'A' + 1`
(keys.rs lines 180 and 203). -/
def ctrlCode (c : Char) : Nat :=
  c.toUpper.toNat - 65 + 1

/-- UTF-8 bytes of one character (`char::encode_utf8`). -/
def charUtf8 (c : Char) : List Nat :=
  let n := c.toNat
  if n < 128 then [n]
  else if n < 2048 then [192 + n / 64, 128 + n % 64]
  else if n < 65536 then [224 + n / 4096, 128 + n / 64 % 64, 128 + n % 64]
  else [240 + n / 262144, 128 + n / 4096 % 64, 128 + n / 64 % 64, 128 + n % 64]

/-- Embedding of `KeyInput::encode_special_key` (keys.rs line 219). -/
def KeyInput.encode_special_key (inp : KeyInput) (k : SpecialKey) : List Nat :=
  if inp.modifier_code = 1 then k.base_sequence
  else if !k.supports_modifiers then k.base_sequence
  else
    match k with
    | .up => sbytes "\x1b[1;" ++ natBytes inp.modifier_code ++ sbytes "A"
    | .down => sbytes "\x1b[1;" ++ natBytes inp.modifier_code ++ sbytes "B"
    | .right => sbytes "\x1b[1;" ++ natBytes inp.modifier_code ++ sbytes "C"
    | .left => sbytes "\x1b[1;" ++ natBytes inp.modifier_code ++ sbytes "D"
    | .home => sbytes "\x1b[1;" ++ natBytes inp.modifier_code ++ sbytes "H"
    | .end_ => sbytes "\x1b[1;" ++ natBytes inp.modifier_code ++ sbytes "F"
    | .pageUp => sbytes "\x1b[5;" ++ natBytes inp.modifier_code ++ sbytes "~"
    | .pageDown => sbytes "\x1b[6;" ++ natBytes inp.modifier_code ++ sbytes "~"
    | .insert => sbytes "\x1b[2;" ++ natBytes inp.modifier_code ++ sbytes "~"
    | .delete => sbytes "\x1b[3;" ++ natBytes inp.modifier_code ++ sbytes "~"
    | .f1 => sbytes "\x1b[1;" ++ natBytes inp.modifier_code ++ sbytes "P"
    | .f2 => sbytes "\x1b[1;" ++ natBytes inp.modifier_code ++ sbytes "Q"
    | .f3 => sbytes "\x1b[1;" ++ natBytes inp.modifier_code ++ sbytes "R"
    | .f4 => sbytes "\x1b[1;" ++ natBytes inp.modifier_code ++ sbytes "S"
    | .f5 => sbytes "\x1b[15;" ++ natBytes inp.modifier_code ++ sbytes "~"
    | .f6 => sbytes "\x1b[17;" ++ natBytes inp.modifier_code ++ sbytes "~"
    | .f7 => sbytes "\x1b[18;" ++ natBytes inp.modifier_code ++ sbytes "~"
    | .f8 => sbytes "\x1b[19;" ++ natBytes inp.modifier_code ++ sbytes "~"
    | .f9 => sbytes "\x1b[20;" ++ natBytes inp.modifier_code ++ sbytes "~"
    | .f10 => sbytes "\x1b[21;" ++ natBytes inp.modifier_code ++ sbytes "~"
    | .f11 => sbytes "\x1b[23;" ++ natBytes inp.modifier_code ++ sbytes "~"
    | .f12 => sbytes "\x1b[24;" ++ natBytes inp.modifier_code ++ sbytes "~"
    | _ => k.base_sequence

/-- Bytes of a text payload (keys.rs lines 194-210): per character, an ESC
prefix under Alt, the control code under Ctrl for an ASCII letter,
otherwise the UTF-8 bytes. -/
def textBytes (inp : KeyInput) (t : String) : List Nat :=
  t.data.foldr
    (fun c acc =>
      (if inp.alt then [0x1b] else []) ++
        (if inp.ctrl && isAsciiAlphabetic c then [ctrlCode c] else charUtf8 c) ++ acc)
    []

/-- Embedding of `KeyInput::encode` (keys.rs line 172): the Ctrl+letter
shortcut, then special keys, then text, then `NoInput`. -/
def KeyInput.encode (inp : KeyInput) : Except TerminalError (List Nat) :=
  let ctrlLetter : Option (List Nat) :=
    if inp.ctrl && !inp.alt && inp.key.isNone then
      match inp.text with
      | some t =>
          if t.utf8ByteSize = 1 then
            match t.data with
            | c :: _ => if isAsciiAlphabetic c then some [ctrlCode c] else none
            | [] => none
          else none
      | none => none
    else none
  match ctrlLetter with
  | some bytes => .ok bytes
  | none =>
      match inp.key with
      | some k => .ok (inp.encode_special_key k)
      | none =>
          match inp.text with
          | some t => .ok (textBytes inp t)
          | none => .error .noInput

/-- The parameterized xterm sequence for a modifier-supporting key with
modifier parameter `m`, following the spec's table (section 4.7): arrows,
Home/End and F1-F4 use `ESC [ 1 ; m {final}`; PageUp/PageDown, Insert,
Delete and F5-F12 use `ESC [ {num} ; m ~`. -/
def xterm_param_seq (k : SpecialKey) (m : Nat) : List Nat :=
  let finalLetter : Option String :=
    match k with
    | .up => some "A"
    | .down => some "B"
    | .right => some "C"
    | .left => some "D"
    | .home => some "H"
    | .end_ => some "F"
    | .f1 => some "P"
    | .f2 => some "Q"
    | .f3 => some "R"
    | .f4 => some "S"
    | _ => none
  let tildeNum : Option Nat :=
    match k with
    | .pageUp => some 5
    | .pageDown => some 6
    | .insert => some 2
    | .delete => some 3
    | .f5 => some 15
    | .f6 => some 17
    | .f7 => some 18
    | .f8 => some 19
    | .f9 => some 20
    | .f10 => some 21
    | .f11 => some 23
    | .f12 => some 24
    | _ => none
  match finalLetter, tildeNum with
  | some fin, _ => sbytes "\x1b[1;" ++ natBytes m ++ sbytes fin
  | none, some num => sbytes "\x1b[" ++ natBytes num ++ sbytes ";" ++ natBytes m ++ sbytes "~"
  | none, none => []

deriving instance DecidableEq for Except

/-- C7: for every special key that supports modifiers and every modifier
combination with at least one of shift/alt/ctrl set, the encoder emits
the parameterized xterm sequence with modifier parameter
`1 + shift + 2*alt + 4*ctrl`; with no modifiers it emits the base
sequence; in particular Up+shift encodes to `ESC[1;2A` and Up+ctrl to
`ESC[1;5A`. -/
theorem c7_modifier_code_formula :
    (∀ (k : SpecialKey) (sh al ct : Bool), k.supports_modifiers = true →
        (sh || al || ct) = true →
        KeyInput.encode ⟨some k, none, ct, al, sh⟩ =
          .ok (xterm_param_seq k
            (1 + (if sh then 1 else 0) + (if al then 2 else 0) + (if ct then 4 else 0)))) ∧
    (∀ k : SpecialKey,
        KeyInput.encode ⟨some k, none, false, false, false⟩ = .ok k.base_sequence) ∧
    KeyInput.encode ⟨some .up, none, false, false, true⟩ = .ok (sbytes "\x1b[1;2A") ∧
    KeyInput.encode ⟨some .up, none, true, false, false⟩ = .ok (sbytes "\x1b[1;5A") := by
  refine ⟨?_, ?_, ?_, ?_⟩ <;> decide

/-- Witness for C7 at a concrete key and full modifier set. -/
theorem c7_modifier_code_formula_witness :
    KeyInput.encode ⟨some .pageUp, none, true, true, true⟩ =
      .ok (xterm_param_seq .pageUp
        (1 + (if true then 1 else 0) + (if true then 2 else 0) + (if true then 4 else 0))) :=
  c7_modifier_code_formula.1 .pageUp true true true (by decide) (by decide)

/-! ## Session manager (manager.rs) -/

/-- Session-manager state (manager.rs line 28): the id-to-session map
modelled as an association list (the claims do not depend on the map's
representation), plus the configured `max_sessions` limit. -/
structure SessionManager (σ : Type) where
  sessions : List (String × σ)
  max_sessions : Nat
deriving DecidableEq

/-- Embedding of `SessionManager::create_session` (manager.rs line 50):
when the session count has reached `max_sessions` the call fails
immediately with `MaxSessionsReached(limit)` before any construction;
otherwise the session built by `mk` — standing for
`TerminalSession::new`, which may itself fail — is stored under its id
and the info (represented by the id) is returned.  The attach-socket
start, whose failure is only logged, does not affect this state. -/
def create_session {σ : Type} (m : SessionManager σ)
    (mk : Except TerminalError (String × σ)) :
    Except TerminalError String × SessionManager σ :=
  if m.sessions.length ≥ m.max_sessions then
    (.error (.maxSessionsReached m.max_sessions), m)
  else
    match mk with
    | .error e => (.error e, m)
    | .ok p => (.ok p.1, { m with sessions := m.sessions ++ [p] })

/-- C9: with `max_sessions = N` and `N` sessions already held, the next
`create_session` fails with `MaxSessionsReached N` and the session map is
unchanged — whether or not the underlying session construction would
have succeeded. -/
theorem c9_max_sessions_rejected {σ : Type} (m : SessionManager σ) (N : Nat)
    (mk : Except TerminalError (String × σ))
    (hN : m.max_sessions = N) (hfull : m.sessions.length = N) :
    create_session m mk = (.error (.maxSessionsReached N), m) := by
  rw [create_session.eq_def, if_pos (by omega), hN]

/-- Witness for C9: a manager at its limit of two sessions rejects a third
create even though the construction would have succeeded. -/
theorem c9_max_sessions_rejected_witness :
    create_session
        ({ sessions := [("sess_aaaaaaaa", ()), ("sess_bbbbbbbb", ())],
           max_sessions := 2 } : SessionManager Unit)
        (.ok ("sess_cccccccc", ())) =
      (.error (.maxSessionsReached 2),
        ({ sessions := [("sess_aaaaaaaa", ()), ("sess_bbbbbbbb", ())],
           max_sessions := 2 } : SessionManager Unit)) :=
  c9_max_sessions_rejected
    ({ sessions := [("sess_aaaaaaaa", ()), ("sess_bbbbbbbb", ())],
       max_sessions := 2 } : SessionManager Unit)
    2 (.ok ("sess_cccccccc", ())) rfl rfl
